import Mathlib

/-!
# GPIO keyboard driver: the event-processing core

A shallow embedding of `linux_kernel_module.c`.  The four global variables of
the driver become the fields of `State`; every interrupt service routine
becomes a function from the state before the interrupt and the value it reads
from the clock to the state after it together with the calls it made on the
input device.  Unsigned machine arithmetic is written over `Nat` with an
explicit reduction modulo the width of the C type.

`local_irq_save` / `local_irq_restore` and the constant return value
`IRQ_HANDLED` carry no data and are left out.  The routines have no error
path: a result `none` of a routine means that the embedding assigns no
behaviour to the call (a subscript of `keyMap` out of its bounds), and nothing
is proved about such a call.
-/

namespace GPIOKeyboard

/-! ## Constants and the key map -/

/-- Number of rows of the key map, i.e. number of states. -/
def ROW : Nat := 2

/-- Number of columns of the key map, i.e. number of GPIOs. -/
def COLUMN : Nat := 4

/-- Key code `KEY_A` of the Linux input event code table (included through
`linux/input.h`). -/
def KEY_A : Nat := 30

/-- Key code `KEY_B` of the Linux input event code table. -/
def KEY_B : Nat := 48

/-- Key code `KEY_C` of the Linux input event code table. -/
def KEY_C : Nat := 46

/-- Key code `KEY_ENTER` of the Linux input event code table. -/
def KEY_ENTER : Nat := 28

/-- Key code `KEY_X` of the Linux input event code table. -/
def KEY_X : Nat := 45

/-- Key code `KEY_Y` of the Linux input event code table. -/
def KEY_Y : Nat := 21

/-- Key code `KEY_Z` of the Linux input event code table. -/
def KEY_Z : Nat := 44

/-- Key code `KEY_SPACE` of the Linux input event code table. -/
def KEY_SPACE : Nat := 57

/-- The object `keyMap[ROW][COLUMN]`, in the order of its initialiser, which is
also its layout in memory: the keys for state 0, then the keys for state 1. -/
def keyMap : List Nat :=
  [KEY_A, KEY_B, KEY_C, KEY_ENTER,
   KEY_X, KEY_Y, KEY_Z, KEY_SPACE]

/-- The read `keyMap[row][column]`.  With both subscripts inside the bounds of
the array it is the cell at offset `row * COLUMN + column` of the table.  C
gives a subscript outside the bounds no defined behaviour, and the embedding
gives such a read no value: `none` stands for "not defined", it is not an
error that the code reports. -/
def keyMapAt (row column : Nat) : Option Nat :=
  if row < ROW ∧ column < COLUMN then keyMap[row * COLUMN + column]? else none

/-! ## State and output -/

/-- The global variables `state`, `pressCounter` (both `unsigned short`),
`lastInterruptTime` and `lastPressTime` (both `unsigned int`). -/
structure State where
  state : Nat
  pressCounter : Nat
  lastInterruptTime : Nat
  lastPressTime : Nat
deriving DecidableEq, Repr

/-- The values the globals are initialised with. -/
def initialState : State := ⟨0, 0, 0, 0⟩

/-- A call made on the input device: `input_report_key(input, code, value)` or
`input_sync(input)`. -/
inductive InputEvent where
  | report_key (code value : Nat)
  | sync
deriving DecidableEq, Repr

/-- The key reports among the calls made on the input device, as
(code, value) pairs in the order they were made. -/
def keyReports : List InputEvent → List (Nat × Nat)
  | [] => []
  | InputEvent.report_key code value :: rest => (code, value) :: keyReports rest
  | InputEvent.sync :: rest => keyReports rest

/-! ## Machine arithmetic -/

/-- Subtraction of two `unsigned int` values: the difference modulo 2^32. -/
def sub32 (a b : Nat) : Nat :=
  (a + (2 ^ 32 - b % 2 ^ 32)) % 2 ^ 32

/-- The function `getTimeMillis`, of the `struct timeval` that
`do_gettimeofday` fills in: both fields are converted to `uint64_t`
(`tv_usec` after the truncating division by 1000), combined modulo 2^64, and
the result is converted to `uint32_t`. -/
def getTimeMillis (tv_sec tv_usec : Int) : Nat :=
  let sec64 : Nat := (tv_sec % 2 ^ 64).toNat
  let msec64 : Nat := ((Int.tdiv tv_usec 1000) % 2 ^ 64).toNat
  let now : Nat := (sec64 * 1000 % 2 ^ 64 + msec64) % 2 ^ 64
  now % 2 ^ 32

/-! ## The interrupt service routines -/

/-- The function `sendKey`: press and release of `keyMap[row][column]`, each
followed by a sync.  The table is read once for each report. -/
def sendKey (row column : Nat) : Option (List InputEvent) := do
  let down ← keyMapAt row column
  let up ← keyMapAt row column
  pure [InputEvent.report_key down 1, InputEvent.sync,
        InputEvent.report_key up 0, InputEvent.sync]

/-- The function `InterruptHandler_general`.  `interruptTime` is the value the
routine reads from `getTimeMillis` on entry. -/
def InterruptHandler_general (s : State) (interruptTime : Nat) (column : Nat) :
    Option (State × List InputEvent) :=
  if sub32 interruptTime s.lastInterruptTime < 250 then
    some (s, [])
  else do
    let out ← sendKey s.state column
    pure ({ s with lastInterruptTime := interruptTime, pressCounter := 0 }, out)

/-- The function `InterruptHandler_0`. -/
def InterruptHandler_0 (s : State) (interruptTime : Nat) :
    Option (State × List InputEvent) :=
  InterruptHandler_general s interruptTime 0

/-- The function `InterruptHandler_1`. -/
def InterruptHandler_1 (s : State) (interruptTime : Nat) :
    Option (State × List InputEvent) :=
  InterruptHandler_general s interruptTime 1

/-- The function `InterruptHandler_2`. -/
def InterruptHandler_2 (s : State) (interruptTime : Nat) :
    Option (State × List InputEvent) :=
  InterruptHandler_general s interruptTime 2

/-- The function `InterruptHandler_3`.  `interruptTime` is the value the
routine reads from `getTimeMillis` on entry.  The compound assignment
`state ^= 1` and the increment `++pressCounter` are reduced to the width of
`unsigned short`. -/
def InterruptHandler_3 (s : State) (interruptTime : Nat) :
    Option (State × List InputEvent) :=
  if sub32 interruptTime s.lastInterruptTime < 80 then
    some (s, [])
  else if sub32 interruptTime s.lastPressTime < 350 then
    if s.pressCounter > 6 then
      some ({ s with state := (s.state ^^^ 1) % 2 ^ 16,
                     pressCounter := 0,
                     lastPressTime := interruptTime }, [])
    else
      some ({ s with pressCounter := (s.pressCounter + 1) % 2 ^ 16,
                     lastPressTime := interruptTime }, [])
  else do
    let out ← sendKey s.state 3
    pure ({ s with pressCounter := 0, lastPressTime := interruptTime }, out)

/-- The array `InterruptHandlerMap` of `keyboard_init`: the routine registered
for the interrupt of GPIO line `i` is entry `i`. -/
def InterruptHandlerMap : List (State → Nat → Option (State × List InputEvent)) :=
  [InterruptHandler_0, InterruptHandler_1, InterruptHandler_2, InterruptHandler_3]

/-- An edge on GPIO line `channel` while the clock reads `interruptTime`: the
routine that `keyboard_init` registered for that line runs.  No routine is
registered for a line outside the map. -/
def interrupt (s : State) (channel interruptTime : Nat) :
    Option (State × List InputEvent) :=
  match InterruptHandlerMap[channel]? with
  | some handler => handler s interruptTime
  | none => none

/-- The record of one served edge: the line and the clock reading, the
variables after the routine returned, and the calls it made on the input
device. -/
structure Served where
  channel : Nat
  time : Nat
  after : State
  out : List InputEvent
deriving DecidableEq, Repr

/-- A sequence of edges, each a pair (channel, clock reading), served one after
the other.  The result is the final state and the record of every edge, in
order. -/
def run : State → List (Nat × Nat) → Option (State × List Served)
  | s, [] => some (s, [])
  | s, e :: rest => do
    let r ← interrupt s e.1 e.2
    let rs ← run r.1 rest
    pure (rs.1, ⟨e.1, e.2, r.1, r.2⟩ :: rs.2)

/-- The trigger `IRQF_TRIGGER_RISING | IRQF_TRIGGER_FALLING` that `keyboard_init`
passes to `request_irq`: the interrupt of a line is raised on both edges, so a
press of the key on `channel`, given by the clock readings of its two edges,
is served as two edges of that line. -/
def pressEdges (channel : Nat) : List (Nat × Nat) → List (Nat × Nat)
  | [] => []
  | (first, second) :: rest =>
    (channel, first) :: (channel, second) :: pressEdges channel rest

/-! ## Sanity checks of the embedding -/

theorem keyMapAt_last_cell : keyMapAt 1 3 = some KEY_SPACE := by decide

theorem sub32_wraps : sub32 5 4294967295 = 6 := by decide

theorem InterruptHandler_3_sample :
    InterruptHandler_3 ⟨0, 7, 0, 1000⟩ 1100 = some (⟨1, 0, 0, 1100⟩, []) := by decide

/-! ## Basic facts about the key map and `sendKey` -/

theorem keyMapAt_defined {row column : Nat} (hr : row < 2) (hc : column < 4) :
    ∃ k, keyMapAt row column = some k := by
  interval_cases row <;> interval_cases column <;> exact ⟨_, rfl⟩

theorem sendKey_of_keyMapAt {row column k : Nat} (h : keyMapAt row column = some k) :
    sendKey row column =
      some [InputEvent.report_key k 1, InputEvent.sync,
            InputEvent.report_key k 0, InputEvent.sync] := by
  simp [sendKey, h]

theorem xor_one_of_lt_two {n : Nat} (h : n < 2) : (n ^^^ 1) % 2 ^ 16 = 1 - n := by
  interval_cases n <;> decide

/-! ## The single routines -/

/-! ### Branches of `InterruptHandler_general` -/

theorem InterruptHandler_general_rejected_eq {s : State} {now c : Nat}
    (hgate : sub32 now s.lastInterruptTime < 250) :
    InterruptHandler_general s now c = some (s, []) := by
  simp [InterruptHandler_general, hgate]

theorem InterruptHandler_general_dispatch_eq {s : State} {now c k : Nat}
    (hgate : 250 ≤ sub32 now s.lastInterruptTime) (hk : keyMapAt s.state c = some k) :
    InterruptHandler_general s now c =
      some (⟨s.state, 0, now, s.lastPressTime⟩,
            [InputEvent.report_key k 1, InputEvent.sync,
             InputEvent.report_key k 0, InputEvent.sync]) := by
  have hn : ¬ sub32 now s.lastInterruptTime < 250 := by omega
  simp [InterruptHandler_general, hn, sendKey_of_keyMapAt hk]

/-- C1. Plain-channel router: on a channel c in 0..2, the general routine emits
nothing and leaves all four variables unchanged when the unsigned 32-bit
difference now - lastInterruptTime is below 250; otherwise it emits exactly
key-down then key-up for keyMap[state][c], sets lastInterruptTime to now and
pressCounter to 0, and leaves state and lastPressTime unchanged. -/
theorem InterruptHandler_general_plain (s : State) (now c : Nat) (hc : c < 3) :
    (sub32 now s.lastInterruptTime < 250 →
      InterruptHandler_general s now c = some (s, [])) ∧
    (250 ≤ sub32 now s.lastInterruptTime → s.state < 2 →
      ∃ k, keyMapAt s.state c = some k ∧
        InterruptHandler_general s now c =
          some (⟨s.state, 0, now, s.lastPressTime⟩,
                [InputEvent.report_key k 1, InputEvent.sync,
                 InputEvent.report_key k 0, InputEvent.sync])) := by
  refine ⟨fun h => InterruptHandler_general_rejected_eq h, fun h hs => ?_⟩
  obtain ⟨k, hk⟩ := keyMapAt_defined hs (show c < 4 by omega)
  exact ⟨k, hk, InterruptHandler_general_dispatch_eq h hk⟩

theorem InterruptHandler_general_plain_witness :
    InterruptHandler_general ⟨1, 3, 1000, 900⟩ 1249 2 = some (⟨1, 3, 1000, 900⟩, []) ∧
    ∃ k, keyMapAt 1 2 = some k ∧
      InterruptHandler_general ⟨1, 3, 1000, 900⟩ 1250 2 =
        some (⟨1, 0, 1250, 900⟩,
              [InputEvent.report_key k 1, InputEvent.sync,
               InputEvent.report_key k 0, InputEvent.sync]) :=
  ⟨(InterruptHandler_general_plain ⟨1, 3, 1000, 900⟩ 1249 2 (by decide)).1 (by decide),
   (InterruptHandler_general_plain ⟨1, 3, 1000, 900⟩ 1250 2 (by decide)).2
      (by decide) (by decide)⟩

/-! ### Branches of `InterruptHandler_3` -/

theorem InterruptHandler_3_rejected_eq {s : State} {now : Nat}
    (hgate : sub32 now s.lastInterruptTime < 80) :
    InterruptHandler_3 s now = some (s, []) := by
  simp [InterruptHandler_3, hgate]

theorem InterruptHandler_3_toggle_eq {s : State} {now : Nat}
    (hgate : 80 ≤ sub32 now s.lastInterruptTime)
    (hburst : sub32 now s.lastPressTime < 350) (hcount : s.pressCounter > 6) :
    InterruptHandler_3 s now =
      some (⟨(s.state ^^^ 1) % 2 ^ 16, 0, s.lastInterruptTime, now⟩, []) := by
  have hn : ¬ sub32 now s.lastInterruptTime < 80 := by omega
  simp [InterruptHandler_3, hn, hburst, hcount]

theorem InterruptHandler_3_counting_eq {s : State} {now : Nat}
    (hgate : 80 ≤ sub32 now s.lastInterruptTime)
    (hburst : sub32 now s.lastPressTime < 350) (hcount : s.pressCounter ≤ 6) :
    InterruptHandler_3 s now =
      some (⟨s.state, s.pressCounter + 1, s.lastInterruptTime, now⟩, []) := by
  have hn : ¬ sub32 now s.lastInterruptTime < 80 := by omega
  have hc : ¬ s.pressCounter > 6 := by omega
  simp [InterruptHandler_3, hn, hburst, hc]
  omega

theorem InterruptHandler_3_tap_eq {s : State} {now k : Nat}
    (hgate : 80 ≤ sub32 now s.lastInterruptTime)
    (hquiet : 350 ≤ sub32 now s.lastPressTime) (hk : keyMapAt s.state 3 = some k) :
    InterruptHandler_3 s now =
      some (⟨s.state, 0, s.lastInterruptTime, now⟩,
            [InputEvent.report_key k 1, InputEvent.sync,
             InputEvent.report_key k 0, InputEvent.sync]) := by
  have hn : ¬ sub32 now s.lastInterruptTime < 80 := by omega
  have hb : ¬ sub32 now s.lastPressTime < 350 := by omega
  simp [InterruptHandler_3, hn, hb, sendKey_of_keyMapAt hk]

/-- C2. Gesture toggle branch: when now - lastInterruptTime is at least 80,
now - lastPressTime is below 350 and pressCounter exceeds 6, the routine of
line 3 toggles the layer (the new state is 1 - old state, the old state being
0 or 1), sets pressCounter to 0 and lastPressTime to now, and emits no key
event. -/
theorem InterruptHandler_3_toggle (s : State) (now : Nat) (hs : s.state < 2)
    (hgate : 80 ≤ sub32 now s.lastInterruptTime)
    (hburst : sub32 now s.lastPressTime < 350) (hcount : s.pressCounter > 6) :
    InterruptHandler_3 s now =
      some (⟨1 - s.state, 0, s.lastInterruptTime, now⟩, []) := by
  rw [InterruptHandler_3_toggle_eq hgate hburst hcount, xor_one_of_lt_two hs]

theorem InterruptHandler_3_toggle_witness :
    InterruptHandler_3 ⟨0, 7, 1000, 1900⟩ 2000 = some (⟨1 - 0, 0, 1000, 2000⟩, []) :=
  InterruptHandler_3_toggle ⟨0, 7, 1000, 1900⟩ 2000 (by decide) (by decide) (by decide)
    (by decide)

/-- C3. Gesture counting branch: when now - lastInterruptTime is at least 80,
now - lastPressTime is below 350 and pressCounter is at most 6, the routine of
line 3 increments pressCounter by exactly 1, sets lastPressTime to now, leaves
the layer and lastInterruptTime unchanged, and emits no key event. -/
theorem InterruptHandler_3_counting (s : State) (now : Nat)
    (hgate : 80 ≤ sub32 now s.lastInterruptTime)
    (hburst : sub32 now s.lastPressTime < 350) (hcount : s.pressCounter ≤ 6) :
    InterruptHandler_3 s now =
      some (⟨s.state, s.pressCounter + 1, s.lastInterruptTime, now⟩, []) :=
  InterruptHandler_3_counting_eq hgate hburst hcount

theorem InterruptHandler_3_counting_witness :
    InterruptHandler_3 ⟨1, 6, 1000, 1900⟩ 2000 = some (⟨1, 6 + 1, 1000, 2000⟩, []) :=
  InterruptHandler_3_counting ⟨1, 6, 1000, 1900⟩ 2000 (by decide) (by decide) (by decide)

/-- C4. Isolated gesture tap: when now - lastInterruptTime is at least 80 and
now - lastPressTime is at least 350, the routine of line 3 emits exactly one
key-down/key-up pair for keyMap[state][3], leaves the layer unchanged, resets
pressCounter to 0 and sets lastPressTime to now. -/
theorem InterruptHandler_3_isolated_tap (s : State) (now : Nat) (hs : s.state < 2)
    (hgate : 80 ≤ sub32 now s.lastInterruptTime)
    (hquiet : 350 ≤ sub32 now s.lastPressTime) :
    ∃ k, keyMapAt s.state 3 = some k ∧
      InterruptHandler_3 s now =
        some (⟨s.state, 0, s.lastInterruptTime, now⟩,
              [InputEvent.report_key k 1, InputEvent.sync,
               InputEvent.report_key k 0, InputEvent.sync]) := by
  obtain ⟨k, hk⟩ := keyMapAt_defined hs (show 3 < 4 by decide)
  exact ⟨k, hk, InterruptHandler_3_tap_eq hgate hquiet hk⟩

theorem InterruptHandler_3_isolated_tap_witness :
    ∃ k, keyMapAt 1 3 = some k ∧
      InterruptHandler_3 ⟨1, 4, 1000, 1500⟩ 2000 =
        some (⟨1, 0, 1000, 2000⟩,
              [InputEvent.report_key k 1, InputEvent.sync,
               InputEvent.report_key k 0, InputEvent.sync]) :=
  InterruptHandler_3_isolated_tap ⟨1, 4, 1000, 1500⟩ 2000 (by decide) (by decide) (by decide)

/-- C5. Gesture-channel debounce: when the unsigned 32-bit difference
now - lastInterruptTime is below 80 the routine of line 3 emits nothing and
leaves all four variables unchanged; when it is at least 80 the event is not
rejected: exactly one of the toggle, counting and tap branches runs, and
lastPressTime becomes now. -/
theorem InterruptHandler_3_gate (s : State) (now : Nat) :
    (sub32 now s.lastInterruptTime < 80 →
      InterruptHandler_3 s now = some (s, [])) ∧
    (80 ≤ sub32 now s.lastInterruptTime → s.state < 2 →
      ∃ s1 out, InterruptHandler_3 s now = some (s1, out) ∧
        s1.lastPressTime = now ∧
        ((sub32 now s.lastPressTime < 350 ∧ s.pressCounter > 6 ∧
            s1 = ⟨1 - s.state, 0, s.lastInterruptTime, now⟩ ∧ out = []) ∨
         (sub32 now s.lastPressTime < 350 ∧ s.pressCounter ≤ 6 ∧
            s1 = ⟨s.state, s.pressCounter + 1, s.lastInterruptTime, now⟩ ∧ out = []) ∨
         (350 ≤ sub32 now s.lastPressTime ∧
            s1 = ⟨s.state, 0, s.lastInterruptTime, now⟩ ∧
            ∃ k, keyMapAt s.state 3 = some k ∧
              out = [InputEvent.report_key k 1, InputEvent.sync,
                     InputEvent.report_key k 0, InputEvent.sync]))) := by
  refine ⟨fun h => InterruptHandler_3_rejected_eq h, fun hgate hs => ?_⟩
  by_cases hburst : sub32 now s.lastPressTime < 350
  · by_cases hcount : s.pressCounter > 6
    · refine ⟨_, _, InterruptHandler_3_toggle_eq hgate hburst hcount, rfl, Or.inl ?_⟩
      exact ⟨hburst, hcount, by rw [xor_one_of_lt_two hs], rfl⟩
    · have hle : s.pressCounter ≤ 6 := by omega
      exact ⟨_, _, InterruptHandler_3_counting_eq hgate hburst hle, rfl,
        Or.inr (Or.inl ⟨hburst, hle, rfl, rfl⟩)⟩
  · have hquiet : 350 ≤ sub32 now s.lastPressTime := by omega
    obtain ⟨k, hk⟩ := keyMapAt_defined hs (show 3 < 4 by decide)
    exact ⟨_, _, InterruptHandler_3_tap_eq hgate hquiet hk, rfl,
      Or.inr (Or.inr ⟨hquiet, rfl, k, hk, rfl⟩)⟩

theorem InterruptHandler_3_gate_witness :
    InterruptHandler_3 ⟨1, 4, 1000, 900⟩ 1079 = some (⟨1, 4, 1000, 900⟩, []) ∧
    ∃ s1 out, InterruptHandler_3 ⟨1, 4, 1000, 900⟩ 1080 = some (s1, out) ∧
      s1.lastPressTime = 1080 ∧
      ((sub32 1080 900 < 350 ∧ 4 > 6 ∧ s1 = ⟨1 - 1, 0, 1000, 1080⟩ ∧ out = []) ∨
       (sub32 1080 900 < 350 ∧ 4 ≤ 6 ∧ s1 = ⟨1, 4 + 1, 1000, 1080⟩ ∧ out = []) ∨
       (350 ≤ sub32 1080 900 ∧ s1 = ⟨1, 0, 1000, 1080⟩ ∧
          ∃ k, keyMapAt 1 3 = some k ∧
            out = [InputEvent.report_key k 1, InputEvent.sync,
                   InputEvent.report_key k 0, InputEvent.sync])) :=
  ⟨(InterruptHandler_3_gate ⟨1, 4, 1000, 900⟩ 1079).1 (by decide),
   (InterruptHandler_3_gate ⟨1, 4, 1000, 900⟩ 1080).2 (by decide) (by decide)⟩

/-- C6. Key dispatch: for every layer in 0..1 and channel in 0..3, sendKey emits
exactly two key reports, a key-down (value 1) followed by a key-up (value 0),
both for the one code at (layer, channel) of the table whose layer 0 is
(KEY_A, KEY_B, KEY_C, KEY_ENTER) and whose layer 1 is
(KEY_X, KEY_Y, KEY_Z, KEY_SPACE); each report is followed by a sync and no
other code is emitted. -/
theorem sendKey_down_up (layer channel : Nat) (hl : layer < 2) (hc : channel < 4) :
    ∃ k,
      ([[KEY_A, KEY_B, KEY_C, KEY_ENTER],
        [KEY_X, KEY_Y, KEY_Z, KEY_SPACE]][layer]?).bind (fun keys => keys[channel]?)
        = some k ∧
      sendKey layer channel =
        some [InputEvent.report_key k 1, InputEvent.sync,
              InputEvent.report_key k 0, InputEvent.sync] ∧
      (sendKey layer channel).map keyReports = some [(k, 1), (k, 0)] := by
  interval_cases layer <;> interval_cases channel <;> exact ⟨_, rfl, rfl, rfl⟩

theorem sendKey_down_up_witness :
    ∃ k,
      ([[KEY_A, KEY_B, KEY_C, KEY_ENTER],
        [KEY_X, KEY_Y, KEY_Z, KEY_SPACE]][1]?).bind (fun keys => keys[3]?)
        = some k ∧
      sendKey 1 3 =
        some [InputEvent.report_key k 1, InputEvent.sync,
              InputEvent.report_key k 0, InputEvent.sync] ∧
      (sendKey 1 3).map keyReports = some [(k, 1), (k, 0)] :=
  sendKey_down_up 1 3 (by decide) (by decide)

/-- C7. Frame of the shared timestamp: the routine of line 3 leaves
lastInterruptTime unchanged whichever branch it takes (rejected, counting,
toggle, tap); a routine of a plain line 0..2 changes it only in a call that
dispatches a key, and a call that emits nothing changes no variable. -/
theorem lastInterruptTime_frame (s : State) (now c : Nat) (hs : s.state < 2)
    (hc : c < 3) :
    (∃ s1 out, InterruptHandler_3 s now = some (s1, out) ∧
      s1.lastInterruptTime = s.lastInterruptTime) ∧
    (∃ s1 out, InterruptHandler_general s now c = some (s1, out) ∧
      (s1.lastInterruptTime ≠ s.lastInterruptTime →
        ∃ k, keyMapAt s.state c = some k ∧
          out = [InputEvent.report_key k 1, InputEvent.sync,
                 InputEvent.report_key k 0, InputEvent.sync]) ∧
      (out = [] → s1 = s)) := by
  constructor
  · by_cases hgate : sub32 now s.lastInterruptTime < 80
    · exact ⟨_, _, InterruptHandler_3_rejected_eq hgate, rfl⟩
    · have hgate : 80 ≤ sub32 now s.lastInterruptTime := by omega
      by_cases hburst : sub32 now s.lastPressTime < 350
      · by_cases hcount : s.pressCounter > 6
        · exact ⟨_, _, InterruptHandler_3_toggle_eq hgate hburst hcount, rfl⟩
        · exact ⟨_, _, InterruptHandler_3_counting_eq hgate hburst (by omega), rfl⟩
      · obtain ⟨k, hk⟩ := keyMapAt_defined hs (show 3 < 4 by decide)
        exact ⟨_, _, InterruptHandler_3_tap_eq hgate (by omega) hk, rfl⟩
  · by_cases hgate : sub32 now s.lastInterruptTime < 250
    · exact ⟨_, _, InterruptHandler_general_rejected_eq hgate,
        fun h => absurd rfl h, fun _ => rfl⟩
    · obtain ⟨k, hk⟩ := keyMapAt_defined hs (show c < 4 by omega)
      refine ⟨_, _, InterruptHandler_general_dispatch_eq (by omega) hk,
        fun _ => ⟨k, hk, rfl⟩, fun h => ?_⟩
      simp at h

theorem lastInterruptTime_frame_witness :
    (∃ s1 out, InterruptHandler_3 ⟨1, 7, 1000, 1900⟩ 2000 = some (s1, out) ∧
      s1.lastInterruptTime = 1000) ∧
    (∃ s1 out, InterruptHandler_general ⟨1, 7, 1000, 1900⟩ 2000 2 = some (s1, out) ∧
      (s1.lastInterruptTime ≠ 1000 →
        ∃ k, keyMapAt 1 2 = some k ∧
          out = [InputEvent.report_key k 1, InputEvent.sync,
                 InputEvent.report_key k 0, InputEvent.sync]) ∧
      (out = [] → s1 = ⟨1, 7, 1000, 1900⟩)) :=
  lastInterruptTime_frame ⟨1, 7, 1000, 1900⟩ 2000 2 (by decide) (by decide)

/-! ## Sequences of edges -/

theorem sub32_of_le {a b : Nat} (hba : b ≤ a) (ha : a < 2 ^ 32) : sub32 a b = a - b := by
  have hb : b % 4294967296 = b := Nat.mod_eq_of_lt (by omega)
  show (a + (4294967296 - b % 4294967296)) % 4294967296 = a - b
  rw [hb]
  omega

theorem interrupt_plain {c : Nat} (hc : c < 3) (s : State) (t : Nat) :
    interrupt s c t = InterruptHandler_general s t c := by
  interval_cases c <;> rfl

theorem interrupt_gesture (s : State) (t : Nat) :
    interrupt s 3 t = InterruptHandler_3 s t := rfl

theorem run_cons {s s1 sf : State} {c t : Nat} {out : List InputEvent}
    {rest : List (Nat × Nat)} {log : List Served}
    (h1 : interrupt s c t = some (s1, out)) (h2 : run s1 rest = some (sf, log)) :
    run s ((c, t) :: rest) = some (sf, ⟨c, t, s1, out⟩ :: log) := by
  simp [run, h1, h2]

/-- What one edge on a line 0..3 does to the layer and to the shared timestamp. -/
theorem interrupt_step {s : State} {c : Nat} (t : Nat) (hs : s.state < 2) (hc : c < 4) :
    ∃ s1 out, interrupt s c t = some (s1, out) ∧ s1.state < 2 ∧
      (s1.lastInterruptTime = s.lastInterruptTime ∨ s1.lastInterruptTime = t) ∧
      (c < 3 → out ≠ [] →
        s1.lastInterruptTime = t ∧ 250 ≤ sub32 t s.lastInterruptTime) := by
  by_cases hplain : c < 3
  · rw [interrupt_plain hplain]
    by_cases hgate : sub32 t s.lastInterruptTime < 250
    · exact ⟨_, _, InterruptHandler_general_rejected_eq hgate, hs, Or.inl rfl,
        fun _ h => absurd rfl h⟩
    · obtain ⟨k, hk⟩ := keyMapAt_defined hs hc
      exact ⟨_, _, InterruptHandler_general_dispatch_eq (by omega) hk, hs, Or.inr rfl,
        fun _ _ => ⟨rfl, by omega⟩⟩
  · obtain rfl : c = 3 := by omega
    rw [interrupt_gesture]
    by_cases hgate : sub32 t s.lastInterruptTime < 80
    · exact ⟨_, _, InterruptHandler_3_rejected_eq hgate, hs, Or.inl rfl,
        fun h => absurd h hplain⟩
    · have hgate : 80 ≤ sub32 t s.lastInterruptTime := by omega
      by_cases hburst : sub32 t s.lastPressTime < 350
      · by_cases hcount : s.pressCounter > 6
        · refine ⟨_, _, InterruptHandler_3_toggle_eq hgate hburst hcount, ?_, Or.inl rfl,
            fun h => absurd h hplain⟩
          show (s.state ^^^ 1) % 2 ^ 16 < 2
          rw [xor_one_of_lt_two hs]
          omega
        · exact ⟨_, _, InterruptHandler_3_counting_eq hgate hburst (by omega), hs,
            Or.inl rfl, fun h => absurd h hplain⟩
      · obtain ⟨k, hk⟩ := keyMapAt_defined hs (show 3 < 4 by decide)
        exact ⟨_, _, InterruptHandler_3_tap_eq hgate (by omega) hk, hs, Or.inl rfl,
          fun h => absurd h hplain⟩

/-- Once the shared timestamp is at least `L` and not ahead of the edges still
to come, every plain dispatch among them is at least 250 after `L`. -/
theorem run_after_accept (L : Nat) :
    ∀ (evs : List (Nat × Nat)) (s : State), s.state < 2 → L ≤ s.lastInterruptTime →
      (∀ e ∈ evs, e.1 < 4 ∧ s.lastInterruptTime ≤ e.2 ∧ e.2 < 2 ^ 32) →
      evs.Pairwise (fun a b => a.2 ≤ b.2) →
      ∃ sf log, run s evs = some (sf, log) ∧
        log.map (fun x => (x.channel, x.time)) = evs ∧
        ∀ x ∈ log, x.channel < 3 → x.out ≠ [] → L + 250 ≤ x.time := by
  intro evs
  induction evs with
  | nil => intro s _ _ _ _; exact ⟨s, [], rfl, rfl, by simp⟩
  | cons e rest ih =>
    intro s hs hL hev hsorted
    obtain ⟨c, t⟩ := e
    obtain ⟨hc, hlt, ht⟩ := hev (c, t) (List.mem_cons_self _ _)
    rw [List.pairwise_cons] at hsorted
    obtain ⟨s1, out, hstep, hs1, hlit, hdisp⟩ := interrupt_step t hs hc
    have hlit1 : s.lastInterruptTime ≤ s1.lastInterruptTime ∧ s1.lastInterruptTime ≤ t := by
      rcases hlit with h | h <;> rw [h]
      · exact ⟨le_rfl, hlt⟩
      · exact ⟨hlt, le_rfl⟩
    obtain ⟨sf, log, hrun, hmap, hlog⟩ := ih s1 hs1 (le_trans hL hlit1.1)
      (fun e he => ⟨(hev e (List.mem_cons_of_mem _ he)).1,
        le_trans hlit1.2 (hsorted.1 e he), (hev e (List.mem_cons_of_mem _ he)).2.2⟩)
      hsorted.2
    refine ⟨sf, _, run_cons hstep hrun, by simp [hmap], ?_⟩
    intro x hx hxc hxo
    rcases List.mem_cons.1 hx with rfl | hx
    · obtain ⟨-, hge⟩ := hdisp hxc hxo
      rw [sub32_of_le hlt ht] at hge
      show L + 250 ≤ t
      omega
    · exact hlog x hx hxc hxo

/-- A run over edges on lines 0..3, from a state whose layer is 0 or 1, is
defined, and its plain dispatches are pairwise at least 250 apart. -/
theorem run_plain_spaced :
    ∀ (evs : List (Nat × Nat)) (s : State), s.state < 2 →
      (∀ e ∈ evs, e.1 < 4 ∧ e.2 < 2 ^ 32) →
      evs.Pairwise (fun a b => a.2 ≤ b.2) →
      ∃ sf log, run s evs = some (sf, log) ∧
        log.map (fun x => (x.channel, x.time)) = evs ∧
        log.Pairwise (fun a b =>
          a.channel < 3 → b.channel < 3 → a.out ≠ [] → b.out ≠ [] →
            a.time + 250 ≤ b.time) := by
  intro evs
  induction evs with
  | nil => intro s _ _ _; exact ⟨s, [], rfl, rfl, List.Pairwise.nil⟩
  | cons e rest ih =>
    intro s hs hev hsorted
    obtain ⟨c, t⟩ := e
    obtain ⟨hc, ht⟩ := hev (c, t) (List.mem_cons_self _ _)
    rw [List.pairwise_cons] at hsorted
    obtain ⟨s1, out, hstep, hs1, -, hdisp⟩ := interrupt_step t hs hc
    have hrest : ∀ e ∈ rest, e.1 < 4 ∧ e.2 < 2 ^ 32 :=
      fun e he => hev e (List.mem_cons_of_mem _ he)
    obtain ⟨sf, log, hrun, hmap, hpair⟩ := ih s1 hs1 hrest hsorted.2
    refine ⟨sf, _, run_cons hstep hrun, by simp [hmap], ?_⟩
    rw [List.pairwise_cons]
    refine ⟨?_, hpair⟩
    intro b hb hac hbc hao hbo
    obtain ⟨hlit, -⟩ := hdisp hac hao
    obtain ⟨sf2, log2, hrun2, -, hlog2⟩ := run_after_accept t rest s1 hs1 (by omega)
      (fun e he => ⟨(hrest e he).1, by rw [hlit]; exact hsorted.1 e he, (hrest e he).2⟩)
      hsorted.2
    rw [hrun] at hrun2
    obtain ⟨-, rfl⟩ := Prod.mk.inj (Option.some.inj hrun2)
    exact hlog2 b hb hbc hbo

/-- C8 (amended). Plain-channel debounce over traces: from every state whose
layer is 0 or 1, every sequence of edges on lines 0..3 with non-decreasing
clock readings below 2^32 is served, and any two plain-channel edges that both
produce a dispatch are at least 250 apart; so of two plain-channel edges less
than 250 apart at most one is dispatched, and none is dispatched less than 250
after the previously accepted plain edge recorded in lastInterruptTime. -/
theorem plain_debounce_over_traces (s : State) (evs : List (Nat × Nat))
    (hs : s.state < 2) (hch : ∀ e ∈ evs, e.1 < 4) (ht : ∀ e ∈ evs, e.2 < 2 ^ 32)
    (hsorted : evs.Pairwise (fun a b => a.2 ≤ b.2)) :
    ∃ sf log, run s evs = some (sf, log) ∧
      log.map (fun x => (x.channel, x.time)) = evs ∧
      log.Pairwise (fun a b =>
        a.channel < 3 → b.channel < 3 → a.out ≠ [] → b.out ≠ [] →
          a.time + 250 ≤ b.time) ∧
      log.Pairwise (fun a b =>
        a.channel < 3 → b.channel < 3 → b.time < a.time + 250 →
          a.out = [] ∨ b.out = []) ∧
      ((∀ e ∈ evs, s.lastInterruptTime ≤ e.2) →
        ∀ x ∈ log, x.channel < 3 → x.time < s.lastInterruptTime + 250 → x.out = []) := by
  obtain ⟨sf, log, hrun, hmap, hpair⟩ :=
    run_plain_spaced evs s hs (fun e he => ⟨hch e he, ht e he⟩) hsorted
  refine ⟨sf, log, hrun, hmap, hpair, hpair.imp ?_, ?_⟩
  · intro a b h hac hbc hlt
    by_cases hao : a.out = []
    · exact Or.inl hao
    · by_cases hbo : b.out = []
      · exact Or.inr hbo
      · have := h hac hbc hao hbo
        omega
  · intro hle x hx hxc hxt
    obtain ⟨sf2, log2, hrun2, -, hlog2⟩ := run_after_accept s.lastInterruptTime evs s hs
      le_rfl (fun e he => ⟨hch e he, hle e he, ht e he⟩) hsorted
    rw [hrun] at hrun2
    obtain ⟨-, rfl⟩ := Prod.mk.inj (Option.some.inj hrun2)
    by_cases hxo : x.out = []
    · exact hxo
    · have := hlog2 x hx hxc hxo
      omega

theorem plain_debounce_over_traces_witness :
    ∃ sf log, run ⟨1, 2, 500, 0⟩ [(0, 1000), (3, 1100), (1, 1249), (2, 1250)] = some (sf, log) ∧
      log.map (fun x => (x.channel, x.time)) = [(0, 1000), (3, 1100), (1, 1249), (2, 1250)] ∧
      log.Pairwise (fun a b =>
        a.channel < 3 → b.channel < 3 → a.out ≠ [] → b.out ≠ [] →
          a.time + 250 ≤ b.time) ∧
      log.Pairwise (fun a b =>
        a.channel < 3 → b.channel < 3 → b.time < a.time + 250 →
          a.out = [] ∨ b.out = []) ∧
      ((∀ e ∈ [(0, 1000), (3, 1100), (1, 1249), (2, 1250)], 500 ≤ e.2) →
        ∀ x ∈ log, x.channel < 3 → x.time < 500 + 250 → x.out = []) :=
  plain_debounce_over_traces ⟨1, 2, 500, 0⟩ [(0, 1000), (3, 1100), (1, 1249), (2, 1250)]
    (by decide) (by decide) (by decide) (by decide)

/-- C8, as stated, fails: after the plain edge accepted at 1000, the plain edges
at 1249 and 1250 are 1 apart, the first of the two is rejected and the second
is the one that is dispatched. -/
theorem second_of_two_close_edges_dispatched :
    run initialState [(0, 1000), (1, 1249), (1, 1250)] =
      some (⟨0, 0, 1250, 0⟩,
        [⟨0, 1000, ⟨0, 0, 1000, 0⟩,
            [InputEvent.report_key KEY_A 1, InputEvent.sync,
             InputEvent.report_key KEY_A 0, InputEvent.sync]⟩,
         ⟨1, 1249, ⟨0, 0, 1000, 0⟩, []⟩,
         ⟨1, 1250, ⟨0, 0, 1250, 0⟩,
            [InputEvent.report_key KEY_B 1, InputEvent.sync,
             InputEvent.report_key KEY_B 0, InputEvent.sync]⟩]) ∧
    1250 - 1249 < 250 := by
  decide

/-! ## Gesture bursts -/

/-- A burst on line 3 that brings the count of rapid events to 8: every edge
passes the gate, the first is within 350 of lastPressTime and each next one
within 350 of the one before.  No key is emitted and only the last edge
toggles the layer. -/
theorem run_burst_toggle :
    ∀ (ts : List Nat) (s : State), s.state < 2 → ts ≠ [] →
      s.pressCounter + ts.length = 8 →
      (∀ t ∈ ts, 80 ≤ sub32 t s.lastInterruptTime) →
      List.Chain (fun a b => sub32 b a < 350) s.lastPressTime ts →
      ∃ sf log, run s (ts.map (fun t => (3, t))) = some (sf, log) ∧
        (∀ x ∈ log, x.out = []) ∧
        log.map (fun x => x.after.state) =
          List.replicate (ts.length - 1) s.state ++ [1 - s.state] ∧
        sf.state = 1 - s.state := by
  intro ts
  induction ts with
  | nil => intro s _ h; exact absurd rfl h
  | cons t rest ih =>
    intro s hs _ hlen hgate hchain
    rw [List.chain_cons] at hchain
    have hg : 80 ≤ sub32 t s.lastInterruptTime := hgate t (List.mem_cons_self _ _)
    cases rest with
    | nil =>
      have hcount : s.pressCounter > 6 := by simp at hlen; omega
      have hstep := InterruptHandler_3_toggle_eq hg hchain.1 hcount
      rw [xor_one_of_lt_two hs, ← interrupt_gesture] at hstep
      exact ⟨_, _, run_cons hstep rfl, by simp, by simp, rfl⟩
    | cons t2 r =>
      have hcount : s.pressCounter ≤ 6 := by simp at hlen; omega
      have hstep := InterruptHandler_3_counting_eq hg hchain.1 hcount
      rw [← interrupt_gesture] at hstep
      obtain ⟨sf, log, hrun, hout, hstates, hsf⟩ :=
        ih ⟨s.state, s.pressCounter + 1, s.lastInterruptTime, t⟩ hs (by simp)
          (by simp at hlen ⊢; omega)
          (fun u hu => hgate u (List.mem_cons_of_mem _ hu)) hchain.2
      refine ⟨sf, _, run_cons hstep hrun, ?_, ?_, hsf⟩
      · intro x hx
        rcases List.mem_cons.1 hx with rfl | hx
        · rfl
        · exact hout x hx
      · simp only [List.map_cons, hstates, List.length_cons, Nat.add_sub_cancel]
        rfl

theorem chain_sub32_of_gaps :
    ∀ (ts : List Nat) (a : Nat), (∀ t ∈ ts, t < 2 ^ 32) →
      List.Chain (fun a b => a ≤ b ∧ b - a < 350) a ts →
      List.Chain (fun a b => sub32 b a < 350) a ts := by
  intro ts
  induction ts with
  | nil => intro a _ _; exact List.Chain.nil
  | cons t rest ih =>
    intro a hlt hchain
    rw [List.chain_cons] at hchain ⊢
    refine ⟨?_, ih t (fun u hu => hlt u (List.mem_cons_of_mem _ hu)) hchain.2⟩
    rw [sub32_of_le hchain.1.1 (hlt t (List.mem_cons_self _ _))]
    exact hchain.1.2

/-- C9 (amended). Eight-event toggle gesture: from a state with pressCounter 0
(layer 0 or 1), exactly 8 edges on line 3 with non-decreasing clock readings
below 2^32, each passing the 80 gate, the first within 350 of lastPressTime
and all 7 consecutive gaps below 350, emit no key event and toggle the layer
exactly once, while the eighth edge is served. -/
theorem eight_event_toggle (s : State) (t1 : Nat) (ts : List Nat) (hs : s.state < 2)
    (hcount : s.pressCounter = 0) (hlen : (t1 :: ts).length = 8)
    (hlt : ∀ t ∈ t1 :: ts, t < 2 ^ 32)
    (hgate : ∀ t ∈ t1 :: ts, 80 ≤ sub32 t s.lastInterruptTime)
    (hfirst : sub32 t1 s.lastPressTime < 350)
    (hgaps : List.Chain' (fun a b => a ≤ b ∧ b - a < 350) (t1 :: ts)) :
    ∃ sf log, run s ((t1 :: ts).map (fun t => (3, t))) = some (sf, log) ∧
      (∀ x ∈ log, x.out = []) ∧
      log.map (fun x => x.after.state) = List.replicate 7 s.state ++ [1 - s.state] ∧
      sf.state = 1 - s.state := by
  have hchain : List.Chain (fun a b => sub32 b a < 350) s.lastPressTime (t1 :: ts) :=
    List.chain_cons.2 ⟨hfirst,
      chain_sub32_of_gaps ts t1 (fun u hu => hlt u (List.mem_cons_of_mem _ hu)) hgaps⟩
  obtain ⟨sf, log, hrun, hout, hstates, hsf⟩ :=
    run_burst_toggle (t1 :: ts) s hs (by simp) (by rw [hcount, hlen]) hgate hchain
  rw [hlen] at hstates
  exact ⟨sf, log, hrun, hout, hstates, hsf⟩

theorem eight_event_toggle_witness :
    ∃ sf log,
      run ⟨1, 0, 0, 950⟩
        ((1000 :: [1100, 1200, 1300, 1400, 1500, 1600, 1700]).map (fun t => (3, t))) =
          some (sf, log) ∧
      (∀ x ∈ log, x.out = []) ∧
      log.map (fun x => x.after.state) = List.replicate 7 1 ++ [1 - 1] ∧
      sf.state = 1 - 1 :=
  eight_event_toggle ⟨1, 0, 0, 950⟩ 1000 [1100, 1200, 1300, 1400, 1500, 1600, 1700]
    (by decide) (by decide) (by decide) (by decide) (by decide) (by decide) (by simp)

/-- C9, as stated, fails: from the initial state (pressCounter 0), the 8 edges on
line 3 at 1000, 1100, ..., 1700 all pass the 80 gate and are 100 apart, yet the
first of them emits a key-down/key-up pair for KEY_ENTER and the layer is still
0 after the eighth: the first edge is 1000 after lastPressTime, so it is an
isolated tap and only 7 rapid events have been counted. -/
theorem eight_events_after_silence_do_not_toggle :
    initialState.pressCounter = 0 ∧
    (∀ t ∈ [1000, 1100, 1200, 1300, 1400, 1500, 1600, 1700],
      80 ≤ sub32 t initialState.lastInterruptTime) ∧
    List.Chain' (fun a b => a ≤ b ∧ b - a < 350)
      [1000, 1100, 1200, 1300, 1400, 1500, 1600, 1700] ∧
    run initialState
        ([1000, 1100, 1200, 1300, 1400, 1500, 1600, 1700].map (fun t => (3, t))) =
      some (⟨0, 7, 0, 1700⟩,
        [⟨3, 1000, ⟨0, 0, 0, 1000⟩,
            [InputEvent.report_key KEY_ENTER 1, InputEvent.sync,
             InputEvent.report_key KEY_ENTER 0, InputEvent.sync]⟩,
         ⟨3, 1100, ⟨0, 1, 0, 1100⟩, []⟩,
         ⟨3, 1200, ⟨0, 2, 0, 1200⟩, []⟩,
         ⟨3, 1300, ⟨0, 3, 0, 1300⟩, []⟩,
         ⟨3, 1400, ⟨0, 4, 0, 1400⟩, []⟩,
         ⟨3, 1500, ⟨0, 5, 0, 1500⟩, []⟩,
         ⟨3, 1600, ⟨0, 6, 0, 1600⟩, []⟩,
         ⟨3, 1700, ⟨0, 7, 0, 1700⟩, []⟩]) := by
  refine ⟨rfl, by decide, by simp, by decide⟩

/-- Edges on line 3 cannot toggle the layer while pressCounter plus the number of
edges that pass the gate stays at most 7. -/
theorem run_gesture_no_toggle :
    ∀ (ts : List Nat) (s : State), s.state < 2 →
      s.pressCounter +
        (ts.filter (fun t => decide (80 ≤ sub32 t s.lastInterruptTime))).length ≤ 7 →
      ∃ sf log, run s (ts.map (fun t => (3, t))) = some (sf, log) ∧
        (∀ x ∈ log, x.after.state = s.state) ∧ sf.state = s.state := by
  intro ts
  induction ts with
  | nil => intro s _ _; exact ⟨s, [], rfl, by simp, rfl⟩
  | cons t rest ih =>
    intro s hs hlen
    have key : ∃ s1 out, interrupt s 3 t = some (s1, out) ∧ s1.state = s.state ∧
        s1.lastInterruptTime = s.lastInterruptTime ∧
        s1.pressCounter +
          (rest.filter (fun t => decide (80 ≤ sub32 t s.lastInterruptTime))).length ≤ 7 := by
      rw [interrupt_gesture]
      by_cases hgate : sub32 t s.lastInterruptTime < 80
      · refine ⟨_, _, InterruptHandler_3_rejected_eq hgate, rfl, rfl, ?_⟩
        have hd : decide (80 ≤ sub32 t s.lastInterruptTime) = false := by
          simp; omega
        rw [List.filter_cons_of_neg (by simp [hd])] at hlen
        exact hlen
      · have hgate : 80 ≤ sub32 t s.lastInterruptTime := by omega
        rw [List.filter_cons_of_pos (by simpa using hgate)] at hlen
        simp only [List.length_cons] at hlen
        by_cases hburst : sub32 t s.lastPressTime < 350
        · refine ⟨_, _, InterruptHandler_3_counting_eq hgate hburst (by omega),
            rfl, rfl, ?_⟩
          show s.pressCounter + 1 + _ ≤ 7
          omega
        · obtain ⟨k, hk⟩ := keyMapAt_defined hs (show 3 < 4 by decide)
          refine ⟨_, _, InterruptHandler_3_tap_eq hgate (by omega) hk, rfl, rfl, ?_⟩
          show 0 + _ ≤ 7
          omega
    obtain ⟨s1, out, hstep, hst, hlit, hbound⟩ := key
    rw [← hlit] at hbound
    obtain ⟨sf, log, hrun, hlog, hsf⟩ := ih s1 (by rw [hst]; exact hs) hbound
    refine ⟨sf, _, run_cons hstep hrun, ?_, by rw [hsf, hst]⟩
    intro x hx
    rcases List.mem_cons.1 hx with rfl | hx
    · exact hst
    · rw [hlog x hx, hst]

/-- C10. A plain dispatch cancels a gesture burst: whatever pressCounter had
reached, once an edge on a plain line 0..2 has been accepted and dispatched,
any following sequence of at most 7 edges on line 3, with any clock readings,
leaves the layer unchanged; more precisely so does any following sequence of
edges on line 3 of which at most 7 pass the 80 gate, so a toggle can occur no
earlier than the 8th accepted edge on line 3 after the reset. -/
theorem plain_dispatch_cancels_burst (s : State) (now c : Nat) (hs : s.state < 2)
    (hc : c < 3) (haccept : 250 ≤ sub32 now s.lastInterruptTime) :
    ∃ s1 out, InterruptHandler_general s now c = some (s1, out) ∧
      keyReports out ≠ [] ∧ s1.state = s.state ∧
      (∀ ts : List Nat, ts.length ≤ 7 →
        ∃ sf log, run s1 (ts.map (fun t => (3, t))) = some (sf, log) ∧
          (∀ x ∈ log, x.after.state = s.state) ∧ sf.state = s.state) ∧
      (∀ ts : List Nat, (ts.filter (fun t => decide (80 ≤ sub32 t now))).length ≤ 7 →
        ∃ sf log, run s1 (ts.map (fun t => (3, t))) = some (sf, log) ∧
          (∀ x ∈ log, x.after.state = s.state) ∧ sf.state = s.state) := by
  obtain ⟨k, hk⟩ := keyMapAt_defined hs (show c < 4 by omega)
  refine ⟨_, _, InterruptHandler_general_dispatch_eq haccept hk, by simp [keyReports],
    rfl, fun ts hlen => ?_, fun ts hlen => ?_⟩
  · exact run_gesture_no_toggle ts ⟨s.state, 0, now, s.lastPressTime⟩ hs
      (by
        have := List.length_filter_le (fun t => decide (80 ≤ sub32 t now)) ts
        show 0 + (ts.filter (fun t => decide (80 ≤ sub32 t now))).length ≤ 7
        omega)
  · exact run_gesture_no_toggle ts ⟨s.state, 0, now, s.lastPressTime⟩ hs
      (by
        show 0 + (ts.filter (fun t => decide (80 ≤ sub32 t now))).length ≤ 7
        omega)

theorem plain_dispatch_cancels_burst_witness :
    ∃ s1 out, InterruptHandler_general ⟨1, 3, 1000, 1900⟩ 2000 2 = some (s1, out) ∧
      keyReports out ≠ [] ∧ s1.state = 1 ∧
      (∀ ts : List Nat, ts.length ≤ 7 →
        ∃ sf log, run s1 (ts.map (fun t => (3, t))) = some (sf, log) ∧
          (∀ x ∈ log, x.after.state = 1) ∧ sf.state = 1) ∧
      (∀ ts : List Nat, (ts.filter (fun t => decide (80 ≤ sub32 t 2000))).length ≤ 7 →
        ∃ sf log, run s1 (ts.map (fun t => (3, t))) = some (sf, log) ∧
          (∀ x ∈ log, x.after.state = 1) ∧ sf.state = 1) :=
  plain_dispatch_cancels_burst ⟨1, 3, 1000, 1900⟩ 2000 2 (by decide) (by decide) (by decide)

/-! ## Concrete scenarios from the initial state -/

/-- C11 (amended). Concrete gesture scenario: from the initial state (all four
variables 0), edges on line 3 at 0, 100, ..., 700 emit no key at any of the 8
edges; the edge at 0 is rejected by the 80 gate (0 - 0 = 0), so pressCounter is
6 going into the eighth edge and 7 after it and the layer is still 0; the layer
flips from 0 to 1 while the next edge, at 800, is served. -/
theorem gesture_scenario_from_zero :
    run initialState
        [(3, 0), (3, 100), (3, 200), (3, 300), (3, 400), (3, 500), (3, 600), (3, 700),
         (3, 800)] =
      some (⟨1, 0, 0, 800⟩,
        [⟨3, 0, ⟨0, 0, 0, 0⟩, []⟩,
         ⟨3, 100, ⟨0, 1, 0, 100⟩, []⟩,
         ⟨3, 200, ⟨0, 2, 0, 200⟩, []⟩,
         ⟨3, 300, ⟨0, 3, 0, 300⟩, []⟩,
         ⟨3, 400, ⟨0, 4, 0, 400⟩, []⟩,
         ⟨3, 500, ⟨0, 5, 0, 500⟩, []⟩,
         ⟨3, 600, ⟨0, 6, 0, 600⟩, []⟩,
         ⟨3, 700, ⟨0, 7, 0, 700⟩, []⟩,
         ⟨3, 800, ⟨1, 0, 0, 800⟩, []⟩]) := by
  decide

/-- C11, as stated, fails: after the 8 edges at 0, 100, ..., 700 the layer is
still 0, and pressCounter was 6, not 7, going into the edge at 700. -/
theorem gesture_scenario_no_flip_at_700 :
    run initialState
        [(3, 0), (3, 100), (3, 200), (3, 300), (3, 400), (3, 500), (3, 600)] =
      some (⟨0, 6, 0, 600⟩,
        [⟨3, 0, ⟨0, 0, 0, 0⟩, []⟩,
         ⟨3, 100, ⟨0, 1, 0, 100⟩, []⟩,
         ⟨3, 200, ⟨0, 2, 0, 200⟩, []⟩,
         ⟨3, 300, ⟨0, 3, 0, 300⟩, []⟩,
         ⟨3, 400, ⟨0, 4, 0, 400⟩, []⟩,
         ⟨3, 500, ⟨0, 5, 0, 500⟩, []⟩,
         ⟨3, 600, ⟨0, 6, 0, 600⟩, []⟩]) ∧
    InterruptHandler_3 ⟨0, 6, 0, 600⟩ 700 = some (⟨0, 7, 0, 700⟩, []) := by
  decide

/-- C12 (amended). Concrete plain-channel scenario: from the initial state, the
edges on line 0 at 0 and at 100 are both discarded (0 - 0 and 100 - 0 are below
250) and no key is emitted; when the first edge comes at t0 with t0 at least
250, the edges at t0 and t0 + 100 give exactly one key-down/key-up pair for
keyMap[0][0], emitted by the edge at t0, and the edge at t0 + 100 is
discarded. -/
theorem plain_scenario_from_zero :
    run initialState [(0, 0), (0, 100)] =
      some (initialState, [⟨0, 0, initialState, []⟩, ⟨0, 100, initialState, []⟩]) ∧
    ∀ t0 : Nat, 250 ≤ t0 → t0 + 100 < 2 ^ 32 →
      run initialState [(0, t0), (0, t0 + 100)] =
        some (⟨0, 0, t0, 0⟩,
          [⟨0, t0, ⟨0, 0, t0, 0⟩,
              [InputEvent.report_key KEY_A 1, InputEvent.sync,
               InputEvent.report_key KEY_A 0, InputEvent.sync]⟩,
           ⟨0, t0 + 100, ⟨0, 0, t0, 0⟩, []⟩]) := by
  refine ⟨by decide, fun t0 h0 h1 => ?_⟩
  have hfirst : interrupt initialState 0 t0 = some (⟨0, 0, t0, 0⟩,
      [InputEvent.report_key KEY_A 1, InputEvent.sync,
       InputEvent.report_key KEY_A 0, InputEvent.sync]) := by
    rw [interrupt_plain (by decide)]
    refine @InterruptHandler_general_dispatch_eq initialState t0 0 KEY_A ?_ rfl
    show 250 ≤ sub32 t0 0
    rw [sub32_of_le (Nat.zero_le _) (by omega)]
    exact h0
  have hsecond : interrupt ⟨0, 0, t0, 0⟩ 0 (t0 + 100) = some (⟨0, 0, t0, 0⟩, []) := by
    rw [interrupt_plain (by decide)]
    apply InterruptHandler_general_rejected_eq
    show sub32 (t0 + 100) t0 < 250
    rw [sub32_of_le (by omega) h1]
    omega
  exact run_cons hfirst (run_cons hsecond rfl)

theorem plain_scenario_from_zero_witness :
    run initialState [(0, 1000), (0, 1000 + 100)] =
      some (⟨0, 0, 1000, 0⟩,
        [⟨0, 1000, ⟨0, 0, 1000, 0⟩,
            [InputEvent.report_key KEY_A 1, InputEvent.sync,
             InputEvent.report_key KEY_A 0, InputEvent.sync]⟩,
         ⟨0, 1000 + 100, ⟨0, 0, 1000, 0⟩, []⟩]) :=
  plain_scenario_from_zero.2 1000 (by decide) (by decide)

/-- C12, as stated, fails: from the initial state the edge on line 0 at 0 emits
nothing, and neither does the edge at 100. -/
theorem plain_edge_at_zero_discarded :
    InterruptHandler_general initialState 0 0 = some (initialState, []) ∧
    InterruptHandler_general initialState 100 0 = some (initialState, []) := by
  decide

/-- C13 (amended). Concrete isolated-taps scenario: from the initial state, the
edge on line 3 at 0 is rejected by the 80 gate and emits nothing, the edge at
500 gives a key tap for keyMap[0][3], and pressCounter is 0 after each; when
the first edge comes at t0 with t0 at least 350, the edges at t0 and t0 + 500
each give a key tap for keyMap[0][3] and pressCounter is 0 after each. -/
theorem taps_scenario_from_zero :
    run initialState [(3, 0), (3, 500)] =
      some (⟨0, 0, 0, 500⟩,
        [⟨3, 0, ⟨0, 0, 0, 0⟩, []⟩,
         ⟨3, 500, ⟨0, 0, 0, 500⟩,
            [InputEvent.report_key KEY_ENTER 1, InputEvent.sync,
             InputEvent.report_key KEY_ENTER 0, InputEvent.sync]⟩]) ∧
    ∀ t0 : Nat, 350 ≤ t0 → t0 + 500 < 2 ^ 32 →
      run initialState [(3, t0), (3, t0 + 500)] =
        some (⟨0, 0, 0, t0 + 500⟩,
          [⟨3, t0, ⟨0, 0, 0, t0⟩,
              [InputEvent.report_key KEY_ENTER 1, InputEvent.sync,
               InputEvent.report_key KEY_ENTER 0, InputEvent.sync]⟩,
           ⟨3, t0 + 500, ⟨0, 0, 0, t0 + 500⟩,
              [InputEvent.report_key KEY_ENTER 1, InputEvent.sync,
               InputEvent.report_key KEY_ENTER 0, InputEvent.sync]⟩]) := by
  refine ⟨by decide, fun t0 h0 h1 => ?_⟩
  have hz : sub32 t0 0 = t0 := by rw [sub32_of_le (Nat.zero_le _) (by omega)]; rfl
  have hfirst : interrupt initialState 3 t0 = some (⟨0, 0, 0, t0⟩,
      [InputEvent.report_key KEY_ENTER 1, InputEvent.sync,
       InputEvent.report_key KEY_ENTER 0, InputEvent.sync]) := by
    rw [interrupt_gesture]
    refine @InterruptHandler_3_tap_eq initialState t0 KEY_ENTER ?_ ?_ rfl
    · show 80 ≤ sub32 t0 0
      omega
    · show 350 ≤ sub32 t0 0
      omega
  have hsecond : interrupt ⟨0, 0, 0, t0⟩ 3 (t0 + 500) = some (⟨0, 0, 0, t0 + 500⟩,
      [InputEvent.report_key KEY_ENTER 1, InputEvent.sync,
       InputEvent.report_key KEY_ENTER 0, InputEvent.sync]) := by
    rw [interrupt_gesture]
    refine @InterruptHandler_3_tap_eq ⟨0, 0, 0, t0⟩ (t0 + 500) KEY_ENTER ?_ ?_ rfl
    · show 80 ≤ sub32 (t0 + 500) 0
      rw [sub32_of_le (Nat.zero_le _) h1]
      omega
    · show 350 ≤ sub32 (t0 + 500) t0
      rw [sub32_of_le (by omega) h1]
      omega
  exact run_cons hfirst (run_cons hsecond rfl)

theorem taps_scenario_from_zero_witness :
    run initialState [(3, 1000), (3, 1000 + 500)] =
      some (⟨0, 0, 0, 1000 + 500⟩,
        [⟨3, 1000, ⟨0, 0, 0, 1000⟩,
            [InputEvent.report_key KEY_ENTER 1, InputEvent.sync,
             InputEvent.report_key KEY_ENTER 0, InputEvent.sync]⟩,
         ⟨3, 1000 + 500, ⟨0, 0, 0, 1000 + 500⟩,
            [InputEvent.report_key KEY_ENTER 1, InputEvent.sync,
             InputEvent.report_key KEY_ENTER 0, InputEvent.sync]⟩]) :=
  taps_scenario_from_zero.2 1000 (by decide) (by decide)

/-- C13, as stated, fails: from the initial state the edge on line 3 at 0 is
rejected and produces no key tap. -/
theorem gesture_edge_at_zero_no_tap :
    InterruptHandler_3 initialState 0 = some (initialState, []) := by
  decide

/-! ## Invariant of the reachable states -/

/-- What one edge on a line 0..3 does to the layer and the counter when the layer
is 0 or 1 and the counter at most 7: both bounds are kept, and the routine
either emits nothing or reads the cell of the current layer and of its own
column and emits one press and release of it. -/
theorem interrupt_invariant {s : State} {c : Nat} (t : Nat) (hs : s.state < 2)
    (hp : s.pressCounter ≤ 7) (hc : c < 4) :
    ∃ s1 out, interrupt s c t = some (s1, out) ∧ s1.state < 2 ∧ s1.pressCounter ≤ 7 ∧
      (out = [] ∨
        ∃ k, keyMapAt s.state c = some k ∧ s1.state = s.state ∧
          out = [InputEvent.report_key k 1, InputEvent.sync,
                 InputEvent.report_key k 0, InputEvent.sync]) := by
  by_cases hplain : c < 3
  · rw [interrupt_plain hplain]
    by_cases hgate : sub32 t s.lastInterruptTime < 250
    · exact ⟨_, _, InterruptHandler_general_rejected_eq hgate, hs, hp, Or.inl rfl⟩
    · obtain ⟨k, hk⟩ := keyMapAt_defined hs hc
      exact ⟨_, _, InterruptHandler_general_dispatch_eq (by omega) hk, hs, Nat.zero_le _,
        Or.inr ⟨k, hk, rfl, rfl⟩⟩
  · obtain rfl : c = 3 := by omega
    rw [interrupt_gesture]
    by_cases hgate : sub32 t s.lastInterruptTime < 80
    · exact ⟨_, _, InterruptHandler_3_rejected_eq hgate, hs, hp, Or.inl rfl⟩
    · have hgate : 80 ≤ sub32 t s.lastInterruptTime := by omega
      by_cases hburst : sub32 t s.lastPressTime < 350
      · by_cases hcount : s.pressCounter > 6
        · refine ⟨_, _, InterruptHandler_3_toggle_eq hgate hburst hcount, ?_,
            Nat.zero_le _, Or.inl rfl⟩
          show (s.state ^^^ 1) % 2 ^ 16 < 2
          rw [xor_one_of_lt_two hs]
          omega
        · refine ⟨_, _, InterruptHandler_3_counting_eq hgate hburst (by omega), hs, ?_,
            Or.inl rfl⟩
          show s.pressCounter + 1 ≤ 7
          omega
      · obtain ⟨k, hk⟩ := keyMapAt_defined hs (show 3 < 4 by decide)
        exact ⟨_, _, InterruptHandler_3_tap_eq hgate (by omega) hk, hs, Nat.zero_le _,
          Or.inr ⟨k, hk, rfl, rfl⟩⟩

/-- The bounds on the layer and the counter hold along every run over edges on
lines 0..3, and every table read of the run is at a row below `ROW` and a
column below `COLUMN`. -/
theorem run_invariant :
    ∀ (evs : List (Nat × Nat)) (s : State), s.state < 2 → s.pressCounter ≤ 7 →
      (∀ e ∈ evs, e.1 < 4) →
      ∃ sf log, run s evs = some (sf, log) ∧
        log.map (fun x => (x.channel, x.time)) = evs ∧
        sf.state < 2 ∧ sf.pressCounter ≤ 7 ∧
        ∀ x ∈ log, x.after.state < 2 ∧ x.after.pressCounter ≤ 7 ∧
          (x.out = [] ∨
            ∃ k, x.after.state < ROW ∧ x.channel < COLUMN ∧
              keyMapAt x.after.state x.channel = some k ∧
              x.out = [InputEvent.report_key k 1, InputEvent.sync,
                       InputEvent.report_key k 0, InputEvent.sync]) := by
  intro evs
  induction evs with
  | nil => intro s hs hp _; exact ⟨s, [], rfl, rfl, hs, hp, by simp⟩
  | cons e rest ih =>
    intro s hs hp hev
    obtain ⟨c, t⟩ := e
    have hc : c < 4 := hev (c, t) (List.mem_cons_self _ _)
    obtain ⟨s1, out, hstep, hs1, hp1, hout⟩ := interrupt_invariant t hs hp hc
    obtain ⟨sf, log, hrun, hmap, hsf, hpf, hlog⟩ :=
      ih s1 hs1 hp1 (fun e he => hev e (List.mem_cons_of_mem _ he))
    refine ⟨sf, _, run_cons hstep hrun, by simp [hmap], hsf, hpf, ?_⟩
    intro x hx
    rcases List.mem_cons.1 hx with rfl | hx
    · refine ⟨hs1, hp1, ?_⟩
      rcases hout with h | ⟨k, hk, hst, h⟩
      · exact Or.inl h
      · exact Or.inr ⟨k, hs1, hc, by rw [hst]; exact hk, h⟩
    · exact hlog x hx

/-- C14. Reachable-state invariant: every sequence of edges on lines 0..3, with
arbitrary clock readings, is served from the initial state, and in every state
reached the layer is 0 or 1 and pressCounter is between 0 and 7, so it never
overflows an unsigned short; consequently every read keyMap[state][channel]
made by a routine is at a row below 2 and a column below 4 of the table. -/
theorem reachable_invariant (evs : List (Nat × Nat)) (hch : ∀ e ∈ evs, e.1 < 4) :
    ∃ sf log, run initialState evs = some (sf, log) ∧
      log.map (fun x => (x.channel, x.time)) = evs ∧
      sf.state < 2 ∧ sf.pressCounter ≤ 7 ∧ sf.pressCounter < 2 ^ 16 ∧
      ∀ x ∈ log, x.after.state < 2 ∧ x.after.pressCounter ≤ 7 ∧
        (x.out = [] ∨
          ∃ k, x.after.state < ROW ∧ x.channel < COLUMN ∧
            keyMapAt x.after.state x.channel = some k ∧
            x.out = [InputEvent.report_key k 1, InputEvent.sync,
                     InputEvent.report_key k 0, InputEvent.sync]) := by
  obtain ⟨sf, log, hrun, hmap, hsf, hpf, hlog⟩ :=
    run_invariant evs initialState (by decide) (by decide) hch
  exact ⟨sf, log, hrun, hmap, hsf, hpf, by omega, hlog⟩

theorem reachable_invariant_witness :
    ∃ sf log, run initialState [(3, 100), (0, 4000000000), (3, 7), (2, 50)] = some (sf, log) ∧
      log.map (fun x => (x.channel, x.time)) = [(3, 100), (0, 4000000000), (3, 7), (2, 50)] ∧
      sf.state < 2 ∧ sf.pressCounter ≤ 7 ∧ sf.pressCounter < 2 ^ 16 ∧
      ∀ x ∈ log, x.after.state < 2 ∧ x.after.pressCounter ≤ 7 ∧
        (x.out = [] ∨
          ∃ k, x.after.state < ROW ∧ x.channel < COLUMN ∧
            keyMapAt x.after.state x.channel = some k ∧
            x.out = [InputEvent.report_key k 1, InputEvent.sync,
                     InputEvent.report_key k 0, InputEvent.sync]) :=
  reachable_invariant [(3, 100), (0, 4000000000), (3, 7), (2, 50)] (by decide)

/-! ## Columns outside the key map -/

/-- One edge served no earlier than both timestamps keeps them behind the clock,
and whenever the counter is positive the last gesture edge is at least 80 after
the shared timestamp. -/
theorem interrupt_gate_step {s : State} {c : Nat} (t : Nat) (hs : s.state < 2) (hc : c < 4)
    (hlit : s.lastInterruptTime ≤ t) (hlpt : s.lastPressTime ≤ t) (ht : t < 2 ^ 32)
    (hpc : 1 ≤ s.pressCounter → s.lastInterruptTime + 80 ≤ s.lastPressTime) :
    ∃ s1 out, interrupt s c t = some (s1, out) ∧ s1.state < 2 ∧
      s1.lastInterruptTime ≤ t ∧ s1.lastPressTime ≤ t ∧
      (1 ≤ s1.pressCounter → s1.lastInterruptTime + 80 ≤ s1.lastPressTime) := by
  by_cases hplain : c < 3
  · rw [interrupt_plain hplain]
    by_cases hgate : sub32 t s.lastInterruptTime < 250
    · exact ⟨_, _, InterruptHandler_general_rejected_eq hgate, hs, hlit, hlpt, hpc⟩
    · obtain ⟨k, hk⟩ := keyMapAt_defined hs hc
      exact ⟨_, _, InterruptHandler_general_dispatch_eq (by omega) hk, hs, le_rfl, hlpt,
        fun h => absurd h (Nat.not_succ_le_zero 0)⟩
  · obtain rfl : c = 3 := by omega
    rw [interrupt_gesture]
    by_cases hgate : sub32 t s.lastInterruptTime < 80
    · exact ⟨_, _, InterruptHandler_3_rejected_eq hgate, hs, hlit, hlpt, hpc⟩
    · have hgate : 80 ≤ sub32 t s.lastInterruptTime := by omega
      have hge : s.lastInterruptTime + 80 ≤ t := by
        rw [sub32_of_le hlit ht] at hgate
        omega
      by_cases hburst : sub32 t s.lastPressTime < 350
      · by_cases hcount : s.pressCounter > 6
        · refine ⟨_, _, InterruptHandler_3_toggle_eq hgate hburst hcount, ?_, hlit, le_rfl,
            fun _ => hge⟩
          show (s.state ^^^ 1) % 2 ^ 16 < 2
          rw [xor_one_of_lt_two hs]
          omega
        · exact ⟨_, _, InterruptHandler_3_counting_eq hgate hburst (by omega), hs, hlit,
            le_rfl, fun _ => hge⟩
      · obtain ⟨k, hk⟩ := keyMapAt_defined hs (show 3 < 4 by decide)
        exact ⟨_, _, InterruptHandler_3_tap_eq hgate (by omega) hk, hs, hlit, le_rfl,
          fun _ => hge⟩

/-- Along a run with non-decreasing clock readings below 2^32 that starts with
both timestamps behind the clock, a positive counter means that the last
gesture edge came at least 80 after the shared timestamp. -/
theorem run_gate_invariant :
    ∀ (evs : List (Nat × Nat)) (s : State) (T : Nat), s.state < 2 →
      s.lastInterruptTime ≤ T → s.lastPressTime ≤ T →
      (1 ≤ s.pressCounter → s.lastInterruptTime + 80 ≤ s.lastPressTime) →
      (∀ e ∈ evs, e.1 < 4 ∧ T ≤ e.2 ∧ e.2 < 2 ^ 32) →
      evs.Pairwise (fun a b => a.2 ≤ b.2) →
      ∃ sf log, run s evs = some (sf, log) ∧ sf.state < 2 ∧
        (1 ≤ sf.pressCounter → sf.lastInterruptTime + 80 ≤ sf.lastPressTime) ∧
        ∀ now, T ≤ now → (∀ e ∈ evs, e.2 ≤ now) →
          sf.lastInterruptTime ≤ now ∧ sf.lastPressTime ≤ now := by
  intro evs
  induction evs with
  | nil =>
    intro s T hs hlit hlpt hpc _ _
    exact ⟨s, [], rfl, hs, hpc, fun now hT _ => ⟨le_trans hlit hT, le_trans hlpt hT⟩⟩
  | cons e rest ih =>
    intro s T hs hlit hlpt hpc hev hsorted
    obtain ⟨c, t⟩ := e
    obtain ⟨hc, hTt, ht⟩ := hev (c, t) (List.mem_cons_self _ _)
    rw [List.pairwise_cons] at hsorted
    obtain ⟨s1, out, hstep, hs1, hlit1, hlpt1, hpc1⟩ :=
      interrupt_gate_step t hs hc (le_trans hlit hTt) (le_trans hlpt hTt) ht hpc
    obtain ⟨sf, log, hrun, hsf, hpcf, hnow⟩ := ih s1 t hs1 hlit1 hlpt1 hpc1
      (fun e he => ⟨(hev e (List.mem_cons_of_mem _ he)).1, hsorted.1 e he,
        (hev e (List.mem_cons_of_mem _ he)).2.2⟩)
      hsorted.2
    refine ⟨sf, _, run_cons hstep hrun, hsf, hpcf, fun now _ hall => ?_⟩
    exact hnow now (hall (c, t) (List.mem_cons_self _ _))
      (fun e he => hall e (List.mem_cons_of_mem _ he))

/-- C16 (amended). No retroactive flush of swallowed presses: every single
invocation of a routine (any line 0..3, any state with layer 0 or 1, any clock
reading) emits either no key report or exactly one key-down/key-up pair; in
particular, for a stalled burst (pressCounter = k with 1 <= k <= 7) an edge on
line 3 that passes the 80 gate and arrives with now - lastPressTime at least
350 emits exactly one tap for keyMap[state][3] and resets pressCounter to 0, so
the k swallowed edges are never emitted.  The gate is passed in every state
reached from the initial state by edges with non-decreasing clock readings
below 2^32, when the new reading is not before them. -/
theorem no_retroactive_flush (s : State) (c now : Nat) (hs : s.state < 2) (hc : c < 4) :
    (∃ s1 out, interrupt s c now = some (s1, out) ∧
      (keyReports out = [] ∨ ∃ k, keyReports out = [(k, 1), (k, 0)])) ∧
    (1 ≤ s.pressCounter → s.pressCounter ≤ 7 →
      80 ≤ sub32 now s.lastInterruptTime → 350 ≤ sub32 now s.lastPressTime →
      ∃ k, keyMapAt s.state 3 = some k ∧
        InterruptHandler_3 s now =
          some (⟨s.state, 0, s.lastInterruptTime, now⟩,
                [InputEvent.report_key k 1, InputEvent.sync,
                 InputEvent.report_key k 0, InputEvent.sync])) ∧
    (∀ evs : List (Nat × Nat), (∀ e ∈ evs, e.1 < 4 ∧ e.2 ≤ now) → now < 2 ^ 32 →
      evs.Pairwise (fun a b => a.2 ≤ b.2) →
      ∃ sf log, run initialState evs = some (sf, log) ∧
        (1 ≤ sf.pressCounter → 350 ≤ sub32 now sf.lastPressTime →
          ∃ k, keyMapAt sf.state 3 = some k ∧
            InterruptHandler_3 sf now =
              some (⟨sf.state, 0, sf.lastInterruptTime, now⟩,
                    [InputEvent.report_key k 1, InputEvent.sync,
                     InputEvent.report_key k 0, InputEvent.sync]))) := by
  refine ⟨?_, fun _ _ hgate hquiet => ?_, fun evs hev hnow hsorted => ?_⟩
  · by_cases hplain : c < 3
    · rw [interrupt_plain hplain]
      by_cases hgate : sub32 now s.lastInterruptTime < 250
      · exact ⟨_, _, InterruptHandler_general_rejected_eq hgate, Or.inl rfl⟩
      · obtain ⟨k, hk⟩ := keyMapAt_defined hs hc
        exact ⟨_, _, InterruptHandler_general_dispatch_eq (by omega) hk, Or.inr ⟨k, rfl⟩⟩
    · obtain rfl : c = 3 := by omega
      rw [interrupt_gesture]
      by_cases hgate : sub32 now s.lastInterruptTime < 80
      · exact ⟨_, _, InterruptHandler_3_rejected_eq hgate, Or.inl rfl⟩
      · have hgate : 80 ≤ sub32 now s.lastInterruptTime := by omega
        by_cases hburst : sub32 now s.lastPressTime < 350
        · by_cases hcount : s.pressCounter > 6
          · exact ⟨_, _, InterruptHandler_3_toggle_eq hgate hburst hcount, Or.inl rfl⟩
          · exact ⟨_, _, InterruptHandler_3_counting_eq hgate hburst (by omega), Or.inl rfl⟩
        · obtain ⟨k, hk⟩ := keyMapAt_defined hs (show 3 < 4 by decide)
          exact ⟨_, _, InterruptHandler_3_tap_eq hgate (by omega) hk, Or.inr ⟨k, rfl⟩⟩
  · obtain ⟨k, hk⟩ := keyMapAt_defined hs (show 3 < 4 by decide)
    exact ⟨k, hk, InterruptHandler_3_tap_eq hgate hquiet hk⟩
  · obtain ⟨sf, log, hrun, hsf, hpcf, hbehind⟩ :=
      run_gate_invariant evs initialState 0 (by decide) (Nat.zero_le _) (Nat.zero_le _)
        (fun h => absurd h (by decide))
        (fun e he => ⟨(hev e he).1, Nat.zero_le _, lt_of_le_of_lt (hev e he).2 hnow⟩)
        hsorted
    refine ⟨sf, log, hrun, fun hpos hquiet => ?_⟩
    obtain ⟨hlit, -⟩ := hbehind now (Nat.zero_le _) (fun e he => (hev e he).2)
    obtain ⟨k, hk⟩ := keyMapAt_defined hsf (show 3 < 4 by decide)
    refine ⟨k, hk, InterruptHandler_3_tap_eq ?_ hquiet hk⟩
    rw [sub32_of_le hlit hnow]
    have := hpcf hpos
    have := (hbehind now (Nat.zero_le _) (fun e he => (hev e he).2)).2
    omega

theorem no_retroactive_flush_witness :
    (∃ s1 out, interrupt ⟨1, 3, 1000, 1500⟩ 3 2000 = some (s1, out) ∧
      (keyReports out = [] ∨ ∃ k, keyReports out = [(k, 1), (k, 0)])) ∧
    (∃ k, keyMapAt 1 3 = some k ∧
      InterruptHandler_3 ⟨1, 3, 1000, 1500⟩ 2000 =
        some (⟨1, 0, 1000, 2000⟩,
              [InputEvent.report_key k 1, InputEvent.sync,
               InputEvent.report_key k 0, InputEvent.sync])) ∧
    (∃ sf log, run initialState [(3, 100), (3, 200), (3, 300)] = some (sf, log) ∧
      (1 ≤ sf.pressCounter → 350 ≤ sub32 2000 sf.lastPressTime →
        ∃ k, keyMapAt sf.state 3 = some k ∧
          InterruptHandler_3 sf 2000 =
            some (⟨sf.state, 0, sf.lastInterruptTime, 2000⟩,
                  [InputEvent.report_key k 1, InputEvent.sync,
                   InputEvent.report_key k 0, InputEvent.sync]))) :=
  ⟨(no_retroactive_flush ⟨1, 3, 1000, 1500⟩ 3 2000 (by decide) (by decide)).1,
   (no_retroactive_flush ⟨1, 3, 1000, 1500⟩ 3 2000 (by decide) (by decide)).2.1
      (by decide) (by decide) (by decide) (by decide),
   (no_retroactive_flush ⟨1, 3, 1000, 1500⟩ 3 2000 (by decide) (by decide)).2.2
      [(3, 100), (3, 200), (3, 300)] (by decide) (by decide) (by decide)⟩

/-- C16, as stated, fails: after one counted edge on line 3 at 100 (pressCounter
1), an edge on line 3 whose clock reading is 50 arrives with
now - lastPressTime = 2^32 - 50, which is at least 350, but now -
lastInterruptTime = 50 is below 80: the edge is rejected, no tap is emitted and
pressCounter stays 1. -/
theorem stalled_burst_edge_rejected_by_gate :
    run initialState [(3, 100), (3, 50)] =
      some (⟨0, 1, 0, 100⟩,
        [⟨3, 100, ⟨0, 1, 0, 100⟩, []⟩, ⟨3, 50, ⟨0, 1, 0, 100⟩, []⟩]) ∧
    350 ≤ sub32 50 100 := by
  decide

/-! ## Five presses in a row -/

theorem interrupt_counted (st i lit lpt t : Nat) (hgate : 80 ≤ sub32 t lit)
    (hburst : sub32 t lpt < 350) (hi : i ≤ 6) :
    interrupt ⟨st, i, lit, lpt⟩ 3 t = some (⟨st, i + 1, lit, t⟩, []) := by
  rw [interrupt_gesture]
  exact @InterruptHandler_3_counting_eq ⟨st, i, lit, lpt⟩ t hgate hburst hi

theorem interrupt_toggled (st i lit lpt t : Nat) (hst : st < 2) (hgate : 80 ≤ sub32 t lit)
    (hburst : sub32 t lpt < 350) (hi : i > 6) :
    interrupt ⟨st, i, lit, lpt⟩ 3 t = some (⟨1 - st, 0, lit, t⟩, []) := by
  rw [interrupt_gesture, ← xor_one_of_lt_two hst]
  exact @InterruptHandler_3_toggle_eq ⟨st, i, lit, lpt⟩ t hgate hburst hi

theorem interrupt_tapped (st i lit lpt t k : Nat) (hgate : 80 ≤ sub32 t lit)
    (hquiet : 350 ≤ sub32 t lpt) (hk : keyMapAt st 3 = some k) :
    interrupt ⟨st, i, lit, lpt⟩ 3 t =
      some (⟨st, 0, lit, t⟩,
            [InputEvent.report_key k 1, InputEvent.sync,
             InputEvent.report_key k 0, InputEvent.sync]) := by
  rw [interrupt_gesture]
  exact @InterruptHandler_3_tap_eq ⟨st, i, lit, lpt⟩ t k hgate hquiet hk

/-- C17 (amended). The state toggles when GPIO_IN 3 is pressed 5 times in a row,
each press being served as two edges of line 3 (both edges raise the
interrupt): starting from pressCounter 0 (layer 0 or 1), when each of the ten
edges of five presses passes the 80 gate and is within 350 of the edge before
it, the layer toggles exactly once.  When the first edge comes 350 or more
after lastPressTime it is an ordinary key tap, the next seven edges are counted
and the ninth edge, the first edge of the fifth press, toggles the layer;
when the first edge is within 350 of lastPressTime no key is emitted, seven
edges are counted and the eighth edge toggles the layer. -/
theorem five_presses_toggle (s : State) (d1 u1 d2 u2 d3 u3 d4 u4 d5 u5 : Nat)
    (hs : s.state < 2) (hcount : s.pressCounter = 0)
    (hgate : ∀ t ∈ [d1, u1, d2, u2, d3, u3, d4, u4, d5, u5],
      80 ≤ sub32 t s.lastInterruptTime)
    (hgaps : List.Chain' (fun a b => sub32 b a < 350)
      [d1, u1, d2, u2, d3, u3, d4, u4, d5, u5]) :
    (350 ≤ sub32 d1 s.lastPressTime →
      ∃ k, keyMapAt s.state 3 = some k ∧
        run s (pressEdges 3 [(d1, u1), (d2, u2), (d3, u3), (d4, u4), (d5, u5)]) =
          some (⟨1 - s.state, 1, s.lastInterruptTime, u5⟩,
            [⟨3, d1, ⟨s.state, 0, s.lastInterruptTime, d1⟩,
                [InputEvent.report_key k 1, InputEvent.sync,
                 InputEvent.report_key k 0, InputEvent.sync]⟩,
             ⟨3, u1, ⟨s.state, 1, s.lastInterruptTime, u1⟩, []⟩,
             ⟨3, d2, ⟨s.state, 2, s.lastInterruptTime, d2⟩, []⟩,
             ⟨3, u2, ⟨s.state, 3, s.lastInterruptTime, u2⟩, []⟩,
             ⟨3, d3, ⟨s.state, 4, s.lastInterruptTime, d3⟩, []⟩,
             ⟨3, u3, ⟨s.state, 5, s.lastInterruptTime, u3⟩, []⟩,
             ⟨3, d4, ⟨s.state, 6, s.lastInterruptTime, d4⟩, []⟩,
             ⟨3, u4, ⟨s.state, 7, s.lastInterruptTime, u4⟩, []⟩,
             ⟨3, d5, ⟨1 - s.state, 0, s.lastInterruptTime, d5⟩, []⟩,
             ⟨3, u5, ⟨1 - s.state, 1, s.lastInterruptTime, u5⟩, []⟩])) ∧
    (sub32 d1 s.lastPressTime < 350 →
      run s (pressEdges 3 [(d1, u1), (d2, u2), (d3, u3), (d4, u4), (d5, u5)]) =
        some (⟨1 - s.state, 2, s.lastInterruptTime, u5⟩,
          [⟨3, d1, ⟨s.state, 1, s.lastInterruptTime, d1⟩, []⟩,
           ⟨3, u1, ⟨s.state, 2, s.lastInterruptTime, u1⟩, []⟩,
           ⟨3, d2, ⟨s.state, 3, s.lastInterruptTime, d2⟩, []⟩,
           ⟨3, u2, ⟨s.state, 4, s.lastInterruptTime, u2⟩, []⟩,
           ⟨3, d3, ⟨s.state, 5, s.lastInterruptTime, d3⟩, []⟩,
           ⟨3, u3, ⟨s.state, 6, s.lastInterruptTime, u3⟩, []⟩,
           ⟨3, d4, ⟨s.state, 7, s.lastInterruptTime, d4⟩, []⟩,
           ⟨3, u4, ⟨1 - s.state, 0, s.lastInterruptTime, u4⟩, []⟩,
           ⟨3, d5, ⟨1 - s.state, 1, s.lastInterruptTime, d5⟩, []⟩,
           ⟨3, u5, ⟨1 - s.state, 2, s.lastInterruptTime, u5⟩, []⟩])) := by
  obtain ⟨st, pc, lit, lpt⟩ := s
  simp only at hs hcount hgate ⊢
  subst hcount
  simp only [List.chain'_cons, List.chain'_singleton, and_true] at hgaps
  obtain ⟨g1, g2, g3, g4, g5, g6, g7, g8, g9⟩ := hgaps
  have a1 := hgate d1 (by simp)
  have b1 := hgate u1 (by simp)
  have a2 := hgate d2 (by simp)
  have b2 := hgate u2 (by simp)
  have a3 := hgate d3 (by simp)
  have b3 := hgate u3 (by simp)
  have a4 := hgate d4 (by simp)
  have b4 := hgate u4 (by simp)
  have a5 := hgate d5 (by simp)
  have b5 := hgate u5 (by simp)
  constructor
  · intro hquiet
    obtain ⟨k, hk⟩ := keyMapAt_defined hs (show 3 < 4 by decide)
    refine ⟨k, hk, ?_⟩
    exact run_cons (interrupt_tapped st 0 lit lpt d1 k a1 hquiet hk)
      (run_cons (interrupt_counted st 0 lit d1 u1 b1 g1 (by decide))
      (run_cons (interrupt_counted st 1 lit u1 d2 a2 g2 (by decide))
      (run_cons (interrupt_counted st 2 lit d2 u2 b2 g3 (by decide))
      (run_cons (interrupt_counted st 3 lit u2 d3 a3 g4 (by decide))
      (run_cons (interrupt_counted st 4 lit d3 u3 b3 g5 (by decide))
      (run_cons (interrupt_counted st 5 lit u3 d4 a4 g6 (by decide))
      (run_cons (interrupt_counted st 6 lit d4 u4 b4 g7 (by decide))
      (run_cons (interrupt_toggled st 7 lit u4 d5 hs a5 g8 (by decide))
      (run_cons (interrupt_counted (1 - st) 0 lit d5 u5 b5 g9 (by decide)) rfl)))))))))
  · intro hburst
    exact run_cons (interrupt_counted st 0 lit lpt d1 a1 hburst (by decide))
      (run_cons (interrupt_counted st 1 lit d1 u1 b1 g1 (by decide))
      (run_cons (interrupt_counted st 2 lit u1 d2 a2 g2 (by decide))
      (run_cons (interrupt_counted st 3 lit d2 u2 b2 g3 (by decide))
      (run_cons (interrupt_counted st 4 lit u2 d3 a3 g4 (by decide))
      (run_cons (interrupt_counted st 5 lit d3 u3 b3 g5 (by decide))
      (run_cons (interrupt_counted st 6 lit u3 d4 a4 g6 (by decide))
      (run_cons (interrupt_toggled st 7 lit d4 u4 hs b4 g7 (by decide))
      (run_cons (interrupt_counted (1 - st) 0 lit u4 d5 a5 g8 (by decide))
      (run_cons (interrupt_counted (1 - st) 1 lit d5 u5 b5 g9 (by decide)) rfl)))))))))

theorem five_presses_toggle_witness :
    ∃ k, keyMapAt 0 3 = some k ∧
      run initialState
          (pressEdges 3 [(1000, 1100), (1200, 1300), (1400, 1500), (1600, 1700),
            (1800, 1900)]) =
        some (⟨1 - 0, 1, 0, 1900⟩,
          [⟨3, 1000, ⟨0, 0, 0, 1000⟩,
              [InputEvent.report_key k 1, InputEvent.sync,
               InputEvent.report_key k 0, InputEvent.sync]⟩,
           ⟨3, 1100, ⟨0, 1, 0, 1100⟩, []⟩,
           ⟨3, 1200, ⟨0, 2, 0, 1200⟩, []⟩,
           ⟨3, 1300, ⟨0, 3, 0, 1300⟩, []⟩,
           ⟨3, 1400, ⟨0, 4, 0, 1400⟩, []⟩,
           ⟨3, 1500, ⟨0, 5, 0, 1500⟩, []⟩,
           ⟨3, 1600, ⟨0, 6, 0, 1600⟩, []⟩,
           ⟨3, 1700, ⟨0, 7, 0, 1700⟩, []⟩,
           ⟨3, 1800, ⟨1 - 0, 0, 0, 1800⟩, []⟩,
           ⟨3, 1900, ⟨1 - 0, 1, 0, 1900⟩, []⟩]) :=
  (five_presses_toggle initialState 1000 1100 1200 1300 1400 1500 1600 1700 1800 1900
    (by decide) (by decide) (by decide) (by simp [sub32])).1 (by decide)

/-- C17, as stated, fails: from the initial state (pressCounter 0), five
consecutive edges on line 3 at 100, 200, 300, 400, 500, each passing the 80
gate and each within 350 of the one before, are all counted and leave the
state at 0 with pressCounter at 5: five edges are two and a half presses. -/
theorem five_edges_do_not_toggle :
    run initialState [(3, 100), (3, 200), (3, 300), (3, 400), (3, 500)] =
      some (⟨0, 5, 0, 500⟩,
        [⟨3, 100, ⟨0, 1, 0, 100⟩, []⟩,
         ⟨3, 200, ⟨0, 2, 0, 200⟩, []⟩,
         ⟨3, 300, ⟨0, 3, 0, 300⟩, []⟩,
         ⟨3, 400, ⟨0, 4, 0, 400⟩, []⟩,
         ⟨3, 500, ⟨0, 5, 0, 500⟩, []⟩]) := by
  decide

/-! ## The clock -/

/-- On a `struct timeval` with non-negative seconds and microseconds the
function `getTimeMillis` is the millisecond count reduced modulo 2^32. -/
theorem getTimeMillis_eq_mod (sec usec : Nat) :
    getTimeMillis (sec : Int) (usec : Int) = (sec * 1000 + usec / 1000) % 2 ^ 32 := by
  have h1 : (((sec : Int) % 2 ^ 64).toNat) = sec % 2 ^ 64 := by
    have : ((sec : Int) % 2 ^ 64) = ((sec % 2 ^ 64 : Nat) : Int) := by norm_cast
    rw [this, Int.toNat_ofNat]
  have h2 : ((Int.tdiv (usec : Int) 1000) % 2 ^ 64).toNat = (usec / 1000) % 2 ^ 64 := by
    have h3 : Int.tdiv (usec : Int) 1000 = ((usec / 1000 : Nat) : Int) := rfl
    have : (((usec / 1000 : Nat) : Int) % 2 ^ 64) = (((usec / 1000) % 2 ^ 64 : Nat) : Int) := by
      norm_cast
    rw [h3, this, Int.toNat_ofNat]
  unfold getTimeMillis
  simp only [h1, h2]
  norm_num

/-- C18 (amended). The clock: on timevals with tv_sec >= 0 and
0 <= tv_usec < 1000000, getTimeMillis returns tv_sec * 1000 + tv_usec / 1000
converted to unsigned 32-bit, that is reduced modulo 2^32; for two timevals
t1 <= t2 (ordered by seconds then microseconds) it is non-decreasing when both
millisecond counts lie in the same window of 2^32 ms, and in every case the
unsigned 32-bit difference of the two results is the difference of the two
millisecond counts modulo 2^32. -/
theorem getTimeMillis_monotone_within_window (sec1 usec1 sec2 usec2 : Int)
    (hs1 : 0 ≤ sec1) (hs2 : 0 ≤ sec2)
    (hu1 : 0 ≤ usec1 ∧ usec1 < 1000000) (hu2 : 0 ≤ usec2 ∧ usec2 < 1000000)
    (hle : sec1 < sec2 ∨ (sec1 = sec2 ∧ usec1 ≤ usec2)) :
    getTimeMillis sec1 usec1 = (sec1.toNat * 1000 + usec1.toNat / 1000) % 2 ^ 32 ∧
    getTimeMillis sec2 usec2 = (sec2.toNat * 1000 + usec2.toNat / 1000) % 2 ^ 32 ∧
    ((sec1.toNat * 1000 + usec1.toNat / 1000) / 2 ^ 32 =
        (sec2.toNat * 1000 + usec2.toNat / 1000) / 2 ^ 32 →
      getTimeMillis sec1 usec1 ≤ getTimeMillis sec2 usec2) ∧
    sub32 (getTimeMillis sec2 usec2) (getTimeMillis sec1 usec1) =
      ((sec2.toNat * 1000 + usec2.toNat / 1000) -
        (sec1.toNat * 1000 + usec1.toNat / 1000)) % 2 ^ 32 := by
  obtain ⟨a1, rfl⟩ := Int.eq_ofNat_of_zero_le hs1
  obtain ⟨a2, rfl⟩ := Int.eq_ofNat_of_zero_le hs2
  obtain ⟨b1, rfl⟩ := Int.eq_ofNat_of_zero_le hu1.1
  obtain ⟨b2, rfl⟩ := Int.eq_ofNat_of_zero_le hu2.1
  have hms : a1 * 1000 + b1 / 1000 ≤ a2 * 1000 + b2 / 1000 := by
    rcases hle with h | ⟨h, h2⟩ <;> omega
  rw [getTimeMillis_eq_mod, getTimeMillis_eq_mod]
  simp only [Int.toNat_ofNat]
  refine ⟨trivial, trivial, fun hwin => ?_, ?_⟩
  · norm_num at hwin ⊢
    omega
  · unfold sub32
    norm_num
    omega

theorem getTimeMillis_monotone_within_window_witness :
    getTimeMillis 1700000000 999999 =
      ((1700000000 : Int).toNat * 1000 + (999999 : Int).toNat / 1000) % 2 ^ 32 ∧
    getTimeMillis 1700000001 0 =
      ((1700000001 : Int).toNat * 1000 + (0 : Int).toNat / 1000) % 2 ^ 32 ∧
    (((1700000000 : Int).toNat * 1000 + (999999 : Int).toNat / 1000) / 2 ^ 32 =
        ((1700000001 : Int).toNat * 1000 + (0 : Int).toNat / 1000) / 2 ^ 32 →
      getTimeMillis 1700000000 999999 ≤ getTimeMillis 1700000001 0) ∧
    sub32 (getTimeMillis 1700000001 0) (getTimeMillis 1700000000 999999) =
      (((1700000001 : Int).toNat * 1000 + (0 : Int).toNat / 1000) -
        ((1700000000 : Int).toNat * 1000 + (999999 : Int).toNat / 1000)) % 2 ^ 32 :=
  getTimeMillis_monotone_within_window 1700000000 999999 1700000001 0
    (by decide) (by decide) (by decide) (by decide) (Or.inl (by decide))

/-- C18, as stated, fails: the timeval (4294967 s, 295000 us) is before
(4294967 s, 296000 us), yet getTimeMillis returns 4294967295 for the first and
0 for the second, because the millisecond count 4294967296 does not fit in 32
bits. -/
theorem getTimeMillis_decreases_at_wrap :
    getTimeMillis 4294967 295000 = 4294967295 ∧
    getTimeMillis 4294967 296000 = 0 ∧
    ¬ getTimeMillis 4294967 295000 ≤ getTimeMillis 4294967 296000 := by
  decide

/-! ## Chatter on the gesture line and wraparound of the clock -/

theorem sub32_self (a : Nat) : sub32 a a = 0 := by
  show (a + (4294967296 - a % 4294967296)) % 4294967296 = 0
  omega

theorem sub32_add_mod (last : Nat) {e : Nat} (he : e < 2 ^ 32) :
    sub32 ((last + e) % 2 ^ 32) last = e := by
  show ((last + e) % 4294967296 + (4294967296 - last % 4294967296)) % 4294967296 = e
  omega

/-- A counted edge on line 3 that carries the clock reading of the edge before
it. -/
theorem interrupt_same_reading_counted (st i lit now : Nat)
    (hgate : 80 ≤ sub32 now lit) (hi : i ≤ 6) :
    interrupt ⟨st, i, lit, now⟩ 3 now = some (⟨st, i + 1, lit, now⟩, []) := by
  rw [interrupt_gesture]
  refine @InterruptHandler_3_counting_eq ⟨st, i, lit, now⟩ now hgate ?_ hi
  show sub32 now now < 350
  rw [sub32_self]
  decide

/-- C19. Gesture-line chatter is not debounced against itself: from every state
with pressCounter 0 (layer 0 or 1), for every clock reading now with
now - lastInterruptTime at least 80 and now - lastPressTime below 350, eight
edges on line 3 that all carry the reading now pass the gate every time (the
counter goes 1, 2, ..., 7 and lastInterruptTime is never written), emit no key,
and toggle the layer exactly once, on the eighth. -/
theorem gesture_chatter_toggles (s : State) (now : Nat) (hs : s.state < 2)
    (hcount : s.pressCounter = 0) (hgate : 80 ≤ sub32 now s.lastInterruptTime)
    (hburst : sub32 now s.lastPressTime < 350) :
    run s (List.replicate 8 (3, now)) =
      some (⟨1 - s.state, 0, s.lastInterruptTime, now⟩,
        [⟨3, now, ⟨s.state, 1, s.lastInterruptTime, now⟩, []⟩,
         ⟨3, now, ⟨s.state, 2, s.lastInterruptTime, now⟩, []⟩,
         ⟨3, now, ⟨s.state, 3, s.lastInterruptTime, now⟩, []⟩,
         ⟨3, now, ⟨s.state, 4, s.lastInterruptTime, now⟩, []⟩,
         ⟨3, now, ⟨s.state, 5, s.lastInterruptTime, now⟩, []⟩,
         ⟨3, now, ⟨s.state, 6, s.lastInterruptTime, now⟩, []⟩,
         ⟨3, now, ⟨s.state, 7, s.lastInterruptTime, now⟩, []⟩,
         ⟨3, now, ⟨1 - s.state, 0, s.lastInterruptTime, now⟩, []⟩]) := by
  obtain ⟨st, pc, lit, lpt⟩ := s
  simp only at hs hcount hgate hburst
  subst hcount
  have h1 : interrupt ⟨st, 0, lit, lpt⟩ 3 now = some (⟨st, 1, lit, now⟩, []) := by
    rw [interrupt_gesture]
    exact @InterruptHandler_3_counting_eq ⟨st, 0, lit, lpt⟩ now hgate hburst (Nat.zero_le 6)
  have h8 : interrupt ⟨st, 7, lit, now⟩ 3 now = some (⟨1 - st, 0, lit, now⟩, []) := by
    rw [interrupt_gesture, ← xor_one_of_lt_two hs]
    refine @InterruptHandler_3_toggle_eq ⟨st, 7, lit, now⟩ now hgate ?_ (Nat.lt_succ_self 6)
    show sub32 now now < 350
    rw [sub32_self]
    decide
  exact run_cons h1
    (run_cons (interrupt_same_reading_counted st 1 lit now hgate (by decide))
    (run_cons (interrupt_same_reading_counted st 2 lit now hgate (by decide))
    (run_cons (interrupt_same_reading_counted st 3 lit now hgate (by decide))
    (run_cons (interrupt_same_reading_counted st 4 lit now hgate (by decide))
    (run_cons (interrupt_same_reading_counted st 5 lit now hgate (by decide))
    (run_cons (interrupt_same_reading_counted st 6 lit now hgate (by decide))
    (run_cons h8 rfl)))))))

theorem gesture_chatter_toggles_witness :
    run ⟨1, 0, 1000, 1900⟩ (List.replicate 8 (3, 2000)) =
      some (⟨1 - 1, 0, 1000, 2000⟩,
        [⟨3, 2000, ⟨1, 1, 1000, 2000⟩, []⟩,
         ⟨3, 2000, ⟨1, 2, 1000, 2000⟩, []⟩,
         ⟨3, 2000, ⟨1, 3, 1000, 2000⟩, []⟩,
         ⟨3, 2000, ⟨1, 4, 1000, 2000⟩, []⟩,
         ⟨3, 2000, ⟨1, 5, 1000, 2000⟩, []⟩,
         ⟨3, 2000, ⟨1, 6, 1000, 2000⟩, []⟩,
         ⟨3, 2000, ⟨1, 7, 1000, 2000⟩, []⟩,
         ⟨3, 2000, ⟨1 - 1, 0, 1000, 2000⟩, []⟩]) :=
  gesture_chatter_toggles ⟨1, 0, 1000, 1900⟩ 2000 (by decide) (by decide) (by decide)
    (by decide)

/-- C20. The debounce gate is correct across 32-bit wraparound of the clock: for
every lastInterruptTime = last (in particular every last below 2^32) and every
true elapsed time e below 2^32, with now = (last + e) mod 2^32, the unsigned
difference now - last is e
(also when now is below last as a number), the routine of a plain line rejects
the edge exactly when e is below 250 and the routine of line 3 rejects it
exactly when e is below 80; a rejected edge emits nothing and changes no
variable. -/
theorem gate_correct_across_wrap (s : State) (c e : Nat) (hs : s.state < 2) (hc : c < 3)
    (he : e < 2 ^ 32) :
    sub32 ((s.lastInterruptTime + e) % 2 ^ 32) s.lastInterruptTime = e ∧
    (InterruptHandler_general s ((s.lastInterruptTime + e) % 2 ^ 32) c = some (s, []) ↔
      e < 250) ∧
    (InterruptHandler_3 s ((s.lastInterruptTime + e) % 2 ^ 32) = some (s, []) ↔
      e < 80) := by
  have hsub := sub32_add_mod s.lastInterruptTime he
  refine ⟨hsub, ⟨fun h => ?_, fun h => ?_⟩, ⟨fun h => ?_, fun h => ?_⟩⟩
  · by_contra hge
    obtain ⟨k, hk⟩ := keyMapAt_defined hs (show c < 4 by omega)
    rw [InterruptHandler_general_dispatch_eq (by rw [hsub]; omega) hk] at h
    simp at h
  · exact InterruptHandler_general_rejected_eq (by rw [hsub]; exact h)
  · by_contra hge
    have hgate : 80 ≤ sub32 ((s.lastInterruptTime + e) % 2 ^ 32) s.lastInterruptTime := by
      rw [hsub]; omega
    by_cases hburst : sub32 ((s.lastInterruptTime + e) % 2 ^ 32) s.lastPressTime < 350
    · by_cases hcount : s.pressCounter > 6
      · rw [InterruptHandler_3_toggle_eq hgate hburst hcount, xor_one_of_lt_two hs] at h
        have hst := congrArg (fun r => r.map (fun p => p.1.state)) h
        simp at hst
        omega
      · rw [InterruptHandler_3_counting_eq hgate hburst (by omega)] at h
        have hpc := congrArg (fun r => r.map (fun p => p.1.pressCounter)) h
        simp at hpc
    · obtain ⟨k, hk⟩ := keyMapAt_defined hs (show 3 < 4 by decide)
      rw [InterruptHandler_3_tap_eq hgate (by omega) hk] at h
      simp at h
  · exact InterruptHandler_3_rejected_eq (by rw [hsub]; exact h)

theorem gate_correct_across_wrap_witness :
    sub32 ((4294967200 + 300) % 2 ^ 32) 4294967200 = 300 ∧
    (InterruptHandler_general ⟨1, 2, 4294967200, 0⟩ ((4294967200 + 300) % 2 ^ 32) 2 =
        some (⟨1, 2, 4294967200, 0⟩, []) ↔ 300 < 250) ∧
    (InterruptHandler_3 ⟨1, 2, 4294967200, 0⟩ ((4294967200 + 300) % 2 ^ 32) =
        some (⟨1, 2, 4294967200, 0⟩, []) ↔ 300 < 80) :=
  gate_correct_across_wrap ⟨1, 2, 4294967200, 0⟩ 2 300 (by decide) (by decide) (by decide)

end GPIOKeyboard
